import Mathlib

/-!
The binary decoding layer of `pews.go` (pews-go).

A shallow embedding of the decoding code of `src/pews.go` and theorems about it.

Modelling conventions.

* A Go `string` that the program indexes is a list of characters (`GoString`).  Every
  string the program slices is produced by `byteArrayToBinaryString`, hence ASCII, so
  character positions and byte positions coincide.
* A Go `byte` is a `Fin 256`.
* A Go `int` is a 64-bit two's complement integer: an `Int` that is wrapped by `wrapInt`
  after each operation of `binaryStringToInt`, the only place where a value can leave the
  64-bit range.  A Go `int8` is an `Int` produced by `toInt8`.
* A run-time panic (slice or index out of range) is an `Except.error`.
* The package-level variable `simulation` is an explicit argument.
* Loops whose trip count depends on the input carry a fuel argument; running out of fuel is
  the distinct error `Panic.outOfFuel`, which the theorems show never happens.
-/

namespace Pews

/-! ## Go run-time model -/

/-- Run-time failures of the embedded code. -/
inductive Panic where
  | sliceOutOfRange
  | indexOutOfRange (index : Int) (len : Nat)
  | outOfFuel
  deriving DecidableEq, Repr

abbrev GoString := List Char

abbrev Byte := Fin 256

/-- Width of the Go type `int` (64-bit platforms). -/
def intBits : Nat := 64

/-- Two's complement wrap-around of a mathematical integer into the Go type `int`. -/
def wrapInt (x : Int) : Int := (x + 2 ^ (intBits - 1)) % 2 ^ intBits - 2 ^ (intBits - 1)

/-- Go conversion `int8(x)`: the low 8 bits of `x` read as a signed integer. -/
def toInt8 (x : Int) : Int := (x + 128) % 256 - 128

/-- Go slice expression `s[lo:hi]`. -/
def slice {α : Type} (s : List α) (lo hi : Int) : Except Panic (List α) :=
  if 0 ≤ lo ∧ lo ≤ hi ∧ hi ≤ (s.length : Int) then
    .ok ((s.drop lo.toNat).take (hi.toNat - lo.toNat))
  else .error .sliceOutOfRange

/-- Go slice expression `s[lo:]`. -/
def sliceFrom {α : Type} (s : List α) (lo : Int) : Except Panic (List α) :=
  slice s lo s.length

/-- Go slice expression `s[:hi]`. -/
def sliceTo {α : Type} (s : List α) (hi : Int) : Except Panic (List α) :=
  slice s 0 hi

/-- Go index expression `s[i]`. -/
def index {α : Type} (s : List α) (i : Int) : Except Panic α :=
  if h : 0 ≤ i ∧ i.toNat < s.length then .ok (s.get ⟨i.toNat, h.2⟩)
  else .error (.indexOutOfRange i s.length)

/-- Go `strconv.Itoa`: the decimal representation of an integer. -/
def Itoa (n : Int) : GoString := (toString n).toList

/-- Go conversion `string(bytes)`, one character per byte. -/
def bytesToString (bs : List Byte) : GoString := bs.map (fun b => Char.ofNat b.val)

/-- Go `strings.Trim(s, cutset)` for an ASCII cutset. -/
def Trim (s : GoString) (cutset : List Char) : GoString :=
  ((s.dropWhile (fun c => decide (c ∈ cutset))).reverse.dropWhile
    (fun c => decide (c ∈ cutset))).reverse

/-! ## Data model (`pews.go` lines 12-53) -/

structure Station where
  Longitude : Int
  Latitude : Int
  deriving DecidableEq, Repr

structure EarthquakeInfo where
  Longitude : Int
  Latitude : Int
  EarthquakeId : GoString
  Magnitude : Int
  Depth : Int
  Time : GoString
  MaxIntensity : Int
  MaxIntensityArea : List GoString
  Epicenter : GoString
  deriving DecidableEq, Repr

structure EarthquakeMessage where
  StationUpdateNeeded : Bool
  Phase : Int
  LastEarthquakeId : GoString
  MMI : List Int
  EarthquakeInfo : EarthquakeInfo
  deriving DecidableEq, Repr

/-- Simulation state; times are Unix nanoseconds, the duration is in nanoseconds. -/
structure SimulationData where
  StartTime : Int
  EarthquakeId : GoString
  Duration : Int
  callTime : Int
  deriving DecidableEq, Repr

/-- The zero value of `EarthquakeMessage` (`var message EarthquakeMessage`). -/
def zeroMessage : EarthquakeMessage :=
  { StationUpdateNeeded := false, Phase := 0, LastEarthquakeId := [], MMI := [],
    EarthquakeInfo :=
      { Longitude := 0, Latitude := 0, EarthquakeId := [], Magnitude := 0, Depth := 0,
        Time := [], MaxIntensity := 0, MaxIntensityArea := [], Epicenter := [] } }

def PhaseNormal : Int := 1
def PhaseAlert : Int := 2
def PhaseInfo : Int := 3
def PhaseUpdateInfo : Int := 4

/-! ## Bit strings (`pews.go` lines 55-78) -/

/-- `byteToBinaryString`: the eight bits of a byte, most significant first. -/
def byteToBinaryString (b : Byte) : GoString :=
  (List.range 8).foldl
    (fun binaryString i => binaryString ++ Itoa (((b.val >>> (7 - i)) &&& 1 : Nat) : Int)) []

/-- `byteArrayToBinaryString`: the concatenation of the bytes' bit strings. -/
def byteArrayToBinaryString (byteArray : List Byte) : GoString :=
  byteArray.foldl (fun binaryString b => binaryString ++ byteToBinaryString b) []

/-- The byte subtraction `c - '0'` converted to `int`. -/
def digitOf (c : Char) : Int := ((c.toNat + 256 - 48) % 256 : Nat)

/-- The loop of `binaryStringToInt`: at the character `c` followed by `rest`, the index `i`
satisfies `len(binaryString)-i-1 = rest.length`, and the left shift of an `int` is the
product with the power of two, wrapped. -/
def binaryStringToIntLoop : GoString → Int → Int
  | [], result => result
  | c :: rest, result =>
    binaryStringToIntLoop rest (wrapInt (result + wrapInt (digitOf c * 2 ^ rest.length)))

def binaryStringToInt (binaryString : GoString) : Int :=
  binaryStringToIntLoop binaryString 0

/-! ## Station data (`pews.go` lines 92-144) -/

/-- The anonymous function of `parseStationDataHeader` (the `switch` on the status code). -/
def phaseOfCode (code : GoString) : Int :=
  if code = ['0', '0'] then PhaseNormal
  else if code = ['0', '1'] then PhaseUpdateInfo
  else if code = ['1', '0'] then PhaseAlert
  else if code = ['1', '1'] then PhaseInfo
  else PhaseNormal

def parseStationDataHeader (simulation : Option SimulationData) (headerString : GoString)
    (message : EarthquakeMessage) : Except Panic EarthquakeMessage := do
  let c ← index headerString 0
  let message := { message with StationUpdateNeeded := decide (c = '1') }
  let code ← slice headerString 1 3
  let message := { message with Phase := phaseOfCode code }
  if simulation.isNone then
    let idBits ← slice headerString 6 32
    pure { message with LastEarthquakeId := '2' :: '0' :: Itoa (binaryStringToInt idBits) }
  else
    pure message

def mmiConvertArray : List Int := [1, 1, 2, 3, 4, 5, 6, 7, 8, 9, 10, 10, 1, 1, 1]

/-- The first loop of `parseStationDataBody`, `for i := 0; i < stationLength; i++`. -/
def mmiLoop (bodyString : GoString) (stationLength : Int) :
    Nat → Nat → List Int → Except Panic (List Int)
  | 0, _, _ => .error .outOfFuel
  | fuel + 1, i, mmi =>
    if (i : Int) < stationLength then do
      let nibble ← slice bodyString ((i : Int) * 4) ((i : Int) * 4 + 4)
      let v ← index mmiConvertArray (binaryStringToInt nibble)
      mmiLoop bodyString stationLength fuel (i + 1) (mmi ++ [v])
    else
      .ok mmi

def areaNames : List GoString :=
  ["서울".toList, "부산".toList, "대구".toList, "인천".toList, "광주".toList, "대전".toList,
   "울산".toList, "세종".toList, "경기".toList, "강원".toList, "충북".toList, "충남".toList,
   "전북".toList, "전남".toList, "경북".toList, "경남".toList, "제주".toList]

/-- The loop `for i := 99; i < 116; i++` over the area mask. -/
def areaLoop (earthquakeInfoBinaryString : GoString) (area : List GoString) :
    Except Panic (List GoString) :=
  (List.range' 99 17).foldlM
    (fun area (i : Nat) => do
      let c ← index earthquakeInfoBinaryString (i : Int)
      if c = '1' then
        let name ← index areaNames ((i : Int) - 99)
        pure (area ++ [name])
      else
        pure area)
    area

def parseStationDataBody (bodyString : GoString) (stationLength : Int)
    (message : EarthquakeMessage) : Except Panic EarthquakeMessage := do
  let mmi ← mmiLoop bodyString stationLength (stationLength.toNat + 1) 0 message.MMI
  let message := { message with MMI := mmi }
  if message.Phase = PhaseAlert ∨ message.Phase = PhaseInfo then
    let earthquakeInfoBinaryString ← sliceFrom bodyString ((bodyString.length : Int) - 600)
    let latitude ← slice earthquakeInfoBinaryString 0 10
    let longitude ← slice earthquakeInfoBinaryString 10 20
    let magnitude ← slice earthquakeInfoBinaryString 20 27
    let depth ← slice earthquakeInfoBinaryString 27 36
    let time ← slice earthquakeInfoBinaryString 36 69
    let earthquakeId ← slice earthquakeInfoBinaryString 69 95
    let maxIntensity ← slice earthquakeInfoBinaryString 95 99
    let info : EarthquakeInfo :=
      { message.EarthquakeInfo with
        Latitude := 3000 + binaryStringToInt latitude
        Longitude := 12000 + binaryStringToInt longitude
        Magnitude := toInt8 (binaryStringToInt magnitude)
        Depth := toInt8 (binaryStringToInt depth)
        Time := Itoa (binaryStringToInt time + 32400) ++ ['0', '0', '0']
        EarthquakeId := '2' :: '0' :: Itoa (binaryStringToInt earthquakeId)
        MaxIntensity := toInt8 (binaryStringToInt maxIntensity) }
    let mask ← slice earthquakeInfoBinaryString 99 116
    if mask = List.replicate 17 '1' then
      pure { message with EarthquakeInfo := { info with MaxIntensityArea := [] } }
    else
      let area ← areaLoop earthquakeInfoBinaryString info.MaxIntensityArea
      pure { message with EarthquakeInfo := { info with MaxIntensityArea := area } }
  else
    pure message

/-! ## Station list (`pews.go` lines 166-171) -/

/-- The loop `for i := 0; i < len(binaryString)/20*20; i += 20` of `GetStationList`. -/
def stationLoop (binaryString : GoString) :
    Nat → Nat → List Station → Except Panic (List Station)
  | 0, _, _ => .error .outOfFuel
  | fuel + 1, i, stations =>
    if i < binaryString.length / 20 * 20 then do
      let latitude ← slice binaryString (i : Int) ((i : Int) + 10)
      let longitude ← slice binaryString ((i : Int) + 10) ((i : Int) + 20)
      stationLoop binaryString fuel (i + 20)
        (stations ++ [{ Longitude := 12000 + binaryStringToInt longitude,
                        Latitude := 3000 + binaryStringToInt latitude }])
    else
      .ok stations

/-- The decoding part of `GetStationList`, applied to the response body. -/
def decodeStationList (bodyBytes : List Byte) : Except Panic (List Station) :=
  let binaryString := byteArrayToBinaryString bodyBytes
  stationLoop binaryString (binaryString.length / 20 + 1) 0 []

/-! ## Station data decoding path (`pews.go` lines 179-205) -/

/-- The header size chosen by `GetStationData` (lines 179-184). -/
def headerSizeOf (simulation : Option SimulationData) : Int :=
  if simulation.isSome then 8 else 32

/-- The decoding part of `GetStationData` (lines 197-205) applied to the response body, for
the header size chosen earlier in the function and the simulation state at decoding time. -/
def decodeStationData (simulation : Option SimulationData) (headerSize : Int)
    (bodyBytes : List Byte) (stationLength : Int) : Except Panic EarthquakeMessage := do
  let message := zeroMessage
  let binaryString := byteArrayToBinaryString bodyBytes
  let header ← sliceTo binaryString headerSize
  let body ← sliceFrom binaryString headerSize
  let message ← parseStationDataHeader simulation header message
  let message ← parseStationDataBody body stationLength message
  if message.Phase = PhaseAlert ∨ message.Phase = PhaseInfo then
    let tail ← sliceFrom bodyBytes ((bodyBytes.length : Int) - 60)
    pure { message with
      EarthquakeInfo :=
        { message.EarthquakeInfo with
          Epicenter := Trim (bytesToString tail) [Char.ofNat 0, Char.ofNat 32] } }
  else
    pure message

/-- The decoding path of `GetStationData` when the simulation state does not change between
the choice of the header size and the decoding. -/
def stationDataDecode (simulation : Option SimulationData) (bodyBytes : List Byte)
    (stationLength : Int) : Except Panic EarthquakeMessage :=
  decodeStationData simulation (headerSizeOf simulation) bodyBytes stationLength

/-- The response handling of `GetStationData` (lines 192-207): the body is decoded only when
the status code is 200 (`http.StatusOK`); otherwise the zero message is returned as is. -/
def getStationDataResponse (simulation : Option SimulationData) (statusCode : Int)
    (bodyBytes : List Byte) (stationLength : Int) : Except Panic EarthquakeMessage :=
  if statusCode = 200 then stationDataDecode simulation bodyBytes stationLength
  else .ok zeroMessage

/-! ## Clock source (`pews.go` lines 80-90 and 210-213)

An instant (`time.Time`) is its number of nanoseconds since the Unix epoch, a `time.Duration`
is a number of nanoseconds. -/

/-- Go `t.Unix()`: the whole seconds of an instant, rounded down. -/
def unixSeconds (t : Int) : Int := t / 1000000000

/-- Go `int(d.Seconds())` for a duration shorter than 2^24 seconds in absolute value: the
integer quotient truncated toward zero.  `Seconds` computes `float64(sec) + float64(nsec)/1e9`;
the sum is exact for whole seconds and, for a fraction, stays below the next integer as long
as the whole seconds are below 2^24 = 16777216.  From 2^24 seconds on a fraction close to one
second rounds up to the next integer (16777216999999999 ns gives 16777217), which this
quotient does not follow: statements that depend on the value for such durations carry the
bound as a hypothesis. -/
def durationSeconds (d : Int) : Int := Int.tdiv d 1000000000

/-- Go `appendInt`: the decimal digits of `x`, padded with zeros to `width`, after a minus
sign when `x` is negative. -/
def padInt (x : Int) (width : Nat) : GoString :=
  let digits := Nat.toDigits 10 x.natAbs
  let padded := List.replicate (width - digits.length) '0' ++ digits
  if x < 0 then '-' :: padded else padded

/-- Year, month and day of the proleptic Gregorian calendar for a day number counted from
1970-01-01. -/
def civilFromDays (days : Int) : Int × Int × Int :=
  let z := days + 719468
  let era := z / 146097
  let doe := z - era * 146097
  let yoe := (doe - doe / 1460 + doe / 36524 - doe / 146096) / 365
  let doy := doe - (365 * yoe + yoe / 4 - yoe / 100)
  let mp := (5 * doy + 2) / 153
  let d := doy - (153 * mp + 2) / 5 + 1
  let m := if mp < 10 then mp + 3 else mp - 9
  let y := yoe + era * 400 + (if m ≤ 2 then 1 else 0)
  (y, m, d)

/-- Go `t.UTC().Format("20060102150405")`: year, month, day, hour, minute and second of an
instant in UTC. -/
def formatUTC (t : Int) : GoString :=
  let secs := unixSeconds t
  let rem := secs % 86400
  let ymd := civilFromDays (secs / 86400)
  padInt ymd.1 4 ++ padInt ymd.2.1 2 ++ padInt ymd.2.2 2 ++
    padInt (rem / 3600) 2 ++ padInt (rem % 3600 / 60) 2 ++ padInt (rem % 60) 2

/-- `kmaTimeString`: the returned string and the value of the variable `simulation` after the
call.  `now` is the reading of `time.Now()` at line 82 (taken only when a simulation is
armed), `nowReal` the reading at line 89 (taken only on the real-time path).  The product
`time.Duration(timeDiff-1) * time.Second` is a 64-bit multiplication. -/
def kmaTimeString (simulation : Option SimulationData) (now nowReal : Int) :
    GoString × Option SimulationData :=
  match simulation with
  | some sim =>
    let timeDiff := unixSeconds now - unixSeconds sim.callTime
    if timeDiff > durationSeconds sim.Duration then
      (formatUTC (nowReal - 1000000000), none)
    else
      (formatUTC (sim.StartTime + wrapInt ((timeDiff - 1) * 1000000000)), some sim)
  | none => (formatUTC (nowReal - 1000000000), none)

/-- `StartSimulation`: the value of the variable `simulation` after the call at the instant
`now`. -/
def StartSimulation (data : SimulationData) (now : Int) : Option SimulationData :=
  some { data with callTime := now }

/-! ## Specification-side definitions -/

/-- The value a character contributes in `binaryStringToInt`, as a natural number. -/
def digitNat (c : Char) : Nat := (c.toNat + 256 - 48) % 256

/-- The unsigned big-endian value of a digit string, without any wrap-around. -/
def strValue : GoString → Nat
  | [] => 0
  | c :: rest => digitNat c * 2 ^ rest.length + strValue rest

/-- A string over the two characters `0` and `1`. -/
def IsBinary (s : GoString) : Prop := ∀ c ∈ s, c = '0' ∨ c = '1'

instance (s : GoString) : Decidable (IsBinary s) := by
  unfold IsBinary
  infer_instance

/-- The big-endian unsigned value of a whole byte sequence. -/
def bytesValue (bytes : List Byte) : Nat :=
  bytes.foldl (fun v b => v * 256 + b.val) 0

/-- The bit extractor of the specification by shift and mask: the unsigned value of the
`bitLength` bits starting at `bitOffset`, bit 0 being the most significant bit of byte 0. -/
def readUint (bytes : List Byte) (bitOffset bitLength : Nat) : Nat :=
  bytesValue bytes / 2 ^ (8 * bytes.length - bitOffset - bitLength) % 2 ^ bitLength

/-- The MMI region of a body is decodable for `stationLength` stations: every nibble the
first loop of `parseStationDataBody` reads lies inside the body and its value, as
`binaryStringToInt` computes it, is an index of the 15-entry table `mmiConvertArray`. -/
def MMIRegionOk (bodyString : GoString) (stationLength : Int) : Prop :=
  ∀ j : Nat, (j : Int) < stationLength →
    4 * j + 4 ≤ bodyString.length ∧ binaryStringToInt ((bodyString.drop (4 * j)).take 4) < 15

/-- The earthquake info block of a body: its last 600 bits. -/
def earthquakeBlock (bodyString : GoString) : GoString :=
  bodyString.drop (bodyString.length - 600)

/-- The station encoder of the specification's round trip: the 10-bit values `L-3000` and
`G-12000` packed most significant bit first into one 20-bit group, followed by the four
padding bits `pad` that complete three whole bytes. -/
def encodeStation (L G : Int) (pad : Nat) : List Byte :=
  let v := ((L - 3000).toNat % 1024 * 1024 + (G - 12000).toNat % 1024) * 16 + pad % 16
  [Fin.ofNat (v / 65536), Fin.ofNat (v / 256), Fin.ofNat v]

/-! ## Auxiliary lemmas: slices, wrap-around and bit strings -/

theorem slice_eq_ok {α : Type} (s : List α) (lo hi : Int) (h0 : 0 ≤ lo) (h1 : lo ≤ hi)
    (h2 : hi ≤ (s.length : Int)) :
    slice s lo hi = .ok ((s.drop lo.toNat).take (hi.toNat - lo.toNat)) := by
  unfold slice
  rw [if_pos ⟨h0, h1, h2⟩]

theorem slice_nat {α : Type} (s : List α) (lo len : Nat) (h : lo + len ≤ s.length) :
    slice s (lo : Int) ((lo : Int) + (len : Int)) = .ok ((s.drop lo).take len) := by
  rw [slice_eq_ok s _ _ (by omega) (by omega) (by omega)]
  congr 2
  omega

theorem index_nat {α : Type} (s : List α) (i : Nat) (h : i < s.length) :
    index s (i : Int) = .ok (s.get ⟨i, h⟩) := by
  unfold index
  have h' : 0 ≤ (i : Int) ∧ (i : Int).toNat < s.length := ⟨by omega, by simpa using h⟩
  rw [dif_pos h']
  simp

theorem wrapInt_eq (x : Int) (h0 : 0 ≤ x) (h1 : x < 2 ^ 63) : wrapInt x = x := by
  unfold wrapInt intBits
  norm_num at h1 ⊢
  omega

theorem strValue_append (s t : GoString) :
    strValue (s ++ t) = strValue s * 2 ^ t.length + strValue t := by
  induction s with
  | nil => simp [strValue]
  | cons c s ih =>
    show strValue (c :: (s ++ t)) = _
    simp only [strValue, ih, List.length_append, pow_add]
    ring

theorem digitOf_eq (c : Char) : digitOf c = (digitNat c : Int) := rfl

theorem binaryStringToIntLoop_eq (s : GoString) :
    ∀ r : Int, 0 ≤ r → r + strValue s < 2 ^ 63 →
      binaryStringToIntLoop s r = r + strValue s := by
  induction s with
  | nil => intro r _ _; simp [binaryStringToIntLoop, strValue]
  | cons c s ih =>
    intro r h0 h1
    simp only [strValue, Nat.cast_add, Nat.cast_mul, Nat.cast_pow, Nat.cast_ofNat] at h1
    have hd : (0 : Int) ≤ (digitNat c : Int) * 2 ^ s.length := by positivity
    have hs : (0 : Int) ≤ (strValue s : Int) := by positivity
    simp only [binaryStringToIntLoop, digitOf_eq]
    rw [wrapInt_eq _ hd (by linarith), wrapInt_eq _ (by linarith) (by linarith)]
    rw [ih _ (by linarith) (by linarith)]
    simp only [strValue, Nat.cast_add, Nat.cast_mul, Nat.cast_pow, Nat.cast_ofNat]
    ring

theorem binaryStringToInt_eq (s : GoString) (h : strValue s < 2 ^ 63) :
    binaryStringToInt s = (strValue s : Int) := by
  unfold binaryStringToInt
  rw [binaryStringToIntLoop_eq s 0 le_rfl (by simpa using (by exact_mod_cast h))]
  simp

theorem strValue_lt_of_binary (s : GoString) (h : IsBinary s) : strValue s < 2 ^ s.length := by
  induction s with
  | nil => simp [strValue]
  | cons c s ih =>
    have hs := ih (fun x hx => h x (List.mem_cons_of_mem _ hx))
    have hc : digitNat c ≤ 1 := by
      rcases h c (List.mem_cons_self _ _) with rfl | rfl <;> decide
    simp only [strValue, List.length_cons, pow_succ]
    nlinarith [Nat.two_pow_pos s.length]

theorem strValue_le (s : GoString) : strValue s + 255 ≤ 255 * 2 ^ s.length := by
  induction s with
  | nil => simp [strValue]
  | cons c s ih =>
    have hc : digitNat c ≤ 255 := by unfold digitNat; omega
    simp only [strValue, List.length_cons, pow_succ]
    nlinarith [Nat.two_pow_pos s.length]


set_option maxRecDepth 1000000 in
theorem byteToBinaryString_spec :
    ∀ b : Byte, (byteToBinaryString b).length = 8 ∧
      (∀ c ∈ byteToBinaryString b, c = '0' ∨ c = '1') ∧
      strValue (byteToBinaryString b) = b.val := by
  decide

theorem byteArrayToBinaryString_snoc (bs : List Byte) (b : Byte) :
    byteArrayToBinaryString (bs ++ [b]) = byteArrayToBinaryString bs ++ byteToBinaryString b := by
  simp [byteArrayToBinaryString, List.foldl_append]

theorem bytesValue_snoc (bs : List Byte) (b : Byte) :
    bytesValue (bs ++ [b]) = bytesValue bs * 256 + b.val := by
  simp [bytesValue, List.foldl_append]

theorem byteArrayToBinaryString_spec (bs : List Byte) :
    (byteArrayToBinaryString bs).length = 8 * bs.length ∧
      IsBinary (byteArrayToBinaryString bs) ∧
      strValue (byteArrayToBinaryString bs) = bytesValue bs := by
  induction bs using List.reverseRecOn with
  | nil =>
    refine ⟨rfl, ?_, rfl⟩
    intro c hc
    simp [byteArrayToBinaryString] at hc
  | append_singleton bs b ih =>
    obtain ⟨hl, hb, hv⟩ := ih
    obtain ⟨bl, bb, bv⟩ := byteToBinaryString_spec b
    rw [byteArrayToBinaryString_snoc, bytesValue_snoc]
    refine ⟨?_, ?_, ?_⟩
    · simp [hl, bl]; omega
    · intro c hc
      rcases List.mem_append.1 hc with h | h
      · exact hb c h
      · exact bb c h
    · rw [strValue_append, hv, bl, bv]; norm_num

theorem IsBinary.take {s : GoString} (h : IsBinary s) (n : Nat) : IsBinary (s.take n) :=
  fun c hc => h c (List.mem_of_mem_take hc)

theorem IsBinary.drop {s : GoString} (h : IsBinary s) (n : Nat) : IsBinary (s.drop n) :=
  fun c hc => h c (List.mem_of_mem_drop hc)

theorem strValue_slice (s : GoString) (h : IsBinary s) (o l : Nat) (hl : o + l ≤ s.length) :
    strValue ((s.drop o).take l) = strValue s / 2 ^ (s.length - o - l) % 2 ^ l := by
  have hs : s = s.take o ++ ((s.drop o).take l ++ (s.drop o).drop l) := by
    rw [List.take_append_drop, List.take_append_drop]
  have hM := strValue_lt_of_binary _ ((h.drop o).take l)
  have hZ := strValue_lt_of_binary _ ((h.drop o).drop l)
  have lM : ((s.drop o).take l).length = l := by simp; omega
  have lZ : ((s.drop o).drop l).length = s.length - o - l := by simp; omega
  rw [lM] at hM
  rw [lZ] at hZ
  have hv : strValue s = strValue (s.take o) * 2 ^ (l + (s.length - o - l)) +
      (strValue ((s.drop o).take l) * 2 ^ (s.length - o - l) + strValue ((s.drop o).drop l)) := by
    conv_lhs => rw [hs]
    rw [strValue_append, strValue_append, List.length_append, lM, lZ]
  rw [hv]
  generalize strValue (s.take o) = A at *
  generalize strValue ((s.drop o).take l) = M at *
  generalize strValue ((s.drop o).drop l) = Z at *
  generalize s.length - o - l = z at *
  have e : A * 2 ^ (l + z) + (M * 2 ^ z + Z) = Z + (A * 2 ^ l + M) * 2 ^ z := by
    rw [pow_add]; ring
  rw [e, Nat.add_mul_div_right _ _ (Nat.two_pow_pos z), Nat.div_eq_of_lt hZ, Nat.zero_add,
    Nat.add_comm, Nat.add_mul_mod_self_right, Nat.mod_eq_of_lt hM]

/-- Reading a field of at most 63 bits from the bit string of a byte sequence. -/
theorem binaryStringToInt_field (bs : List Byte) (o l : Nat) (hl : o + l ≤ 8 * bs.length)
    (h63 : l ≤ 63) :
    binaryStringToInt (((byteArrayToBinaryString bs).drop o).take l) = (readUint bs o l : Int) := by
  obtain ⟨hlen, hbin, hval⟩ := byteArrayToBinaryString_spec bs
  have hv := strValue_slice _ hbin o l (by omega)
  rw [hlen, hval] at hv
  have hlt : strValue (((byteArrayToBinaryString bs).drop o).take l) < 2 ^ 63 := by
    rw [hv]
    exact lt_of_lt_of_le (Nat.mod_lt _ (Nat.two_pow_pos l)) (Nat.pow_le_pow_right (by norm_num) h63)
  rw [binaryStringToInt_eq _ hlt, hv]
  rfl

/-! ## Station list decoding -/

theorem slice_of_eq {α : Type} (s : List α) (lo hi : Int) (a n : Nat) (hlo : lo = (a : Int))
    (hhi : hi = (a : Int) + (n : Int)) (h : a + n ≤ s.length) :
    slice s lo hi = .ok ((s.drop a).take n) := by
  subst hlo hhi
  exact slice_nat s a n h

theorem slice_length {α : Type} {s t : List α} {lo hi : Int} (h : slice s lo hi = .ok t) :
    0 ≤ lo ∧ lo ≤ hi ∧ hi ≤ (s.length : Int) ∧ t = (s.drop lo.toNat).take (hi.toNat - lo.toNat) := by
  unfold slice at h
  split at h
  · rename_i hc
    injection h with h
    exact ⟨hc.1, hc.2.1, hc.2.2, h.symm⟩
  · cases h

theorem stationLoop_eq (s : GoString) :
    ∀ fuel k acc, s.length / 20 - k < fuel → k ≤ s.length / 20 →
      stationLoop s fuel (20 * k) acc =
        .ok (acc ++ (List.range' k (s.length / 20 - k)).map (fun j =>
          ({ Longitude := 12000 + binaryStringToInt ((s.drop (20 * j + 10)).take 10),
             Latitude := 3000 + binaryStringToInt ((s.drop (20 * j)).take 10) } : Station))) := by
  intro fuel
  induction fuel with
  | zero => intro k acc h; omega
  | succ fuel ih =>
    intro k acc hf hk
    unfold stationLoop
    by_cases hlt : 20 * k < s.length / 20 * 20
    · rw [if_pos hlt]
      have hk' : k + 1 ≤ s.length / 20 := by omega
      have hlen : 20 * k + 20 ≤ s.length := by
        have := Nat.div_mul_le_self s.length 20
        omega
      rw [slice_of_eq s _ _ (20 * k) 10 rfl (by push_cast; ring) (by omega),
        slice_of_eq s _ _ (20 * k + 10) 10 (by push_cast; ring) (by push_cast; ring) (by omega)]
      simp only [Except.bind, bind]
      have e : 20 * k + 20 = 20 * (k + 1) := by ring
      rw [e, ih (k + 1) _ (by omega) hk']
      have e2 : s.length / 20 - k = (s.length / 20 - (k + 1)) + 1 := by omega
      rw [e2, List.range'_succ]
      simp
    · rw [if_neg hlt]
      have e : s.length / 20 - k = 0 := by omega
      simp [e]


theorem take_drop_congr {α : Type} {s t : List α} {m : Nat} (h : s.take m = t.take m)
    (a n : Nat) (hle : a + n ≤ m) : (s.drop a).take n = (t.drop a).take n := by
  have e : s.take (a + n) = t.take (a + n) := by
    have := congrArg (List.take (a + n)) h
    simpa [List.take_take, Nat.min_eq_left hle] using this
  rw [List.take_drop, List.take_drop, e]

theorem decodeStationList_bits (bodyBytes : List Byte) :
    decodeStationList bodyBytes =
      .ok ((List.range ((byteArrayToBinaryString bodyBytes).length / 20)).map (fun j =>
        ({ Longitude := 12000 +
             binaryStringToInt (((byteArrayToBinaryString bodyBytes).drop (20 * j + 10)).take 10),
           Latitude := 3000 +
             binaryStringToInt (((byteArrayToBinaryString bodyBytes).drop (20 * j)).take 10) }
          : Station))) := by
  unfold decodeStationList
  have h := stationLoop_eq (byteArrayToBinaryString bodyBytes)
    ((byteArrayToBinaryString bodyBytes).length / 20 + 1) 0 [] (by omega) (by omega)
  simpa [List.range_eq_range'] using h

theorem decodeStationList_readUint (bodyBytes : List Byte) :
    decodeStationList bodyBytes =
      .ok ((List.range (8 * bodyBytes.length / 20)).map (fun k =>
        ({ Longitude := 12000 + (readUint bodyBytes (20 * k + 10) 10 : Int),
           Latitude := 3000 + (readUint bodyBytes (20 * k) 10 : Int) } : Station))) := by
  rw [decodeStationList_bits]
  have hlen := (byteArrayToBinaryString_spec bodyBytes).1
  rw [hlen]
  congr 1
  apply List.map_congr_left
  intro k hk
  have hk' : k < 8 * bodyBytes.length / 20 := List.mem_range.1 hk
  have hb : 20 * k + 20 ≤ 8 * bodyBytes.length := by
    have := Nat.div_mul_le_self (8 * bodyBytes.length) 20
    omega
  rw [binaryStringToInt_field bodyBytes (20 * k + 10) 10 (by omega) (by norm_num),
    binaryStringToInt_field bodyBytes (20 * k) 10 (by omega) (by norm_num)]

/-- C6: for every byte sequence of `n` bytes the station list decoding loop returns, without
any failure, exactly `floor(8n/20)` stations in group order, station `k` having latitude
`3000 +` the value of bits `[20k, 20k+10)` and longitude `12000 +` the value of bits
`[20k+10, 20k+20)`; the result does not depend on the bits after the last complete group;
and an input of fewer than 20 bits yields the empty sequence. -/
theorem decodeStationList_groups (bodyBytes : List Byte) :
    decodeStationList bodyBytes =
        .ok ((List.range (8 * bodyBytes.length / 20)).map (fun k =>
          ({ Longitude := 12000 + (readUint bodyBytes (20 * k + 10) 10 : Int),
             Latitude := 3000 + (readUint bodyBytes (20 * k) 10 : Int) } : Station))) ∧
      (decodeStationList bodyBytes).map List.length = .ok (8 * bodyBytes.length / 20) ∧
      (∀ other : List Byte, other.length = bodyBytes.length →
        (byteArrayToBinaryString other).take (20 * (8 * bodyBytes.length / 20)) =
          (byteArrayToBinaryString bodyBytes).take (20 * (8 * bodyBytes.length / 20)) →
        decodeStationList other = decodeStationList bodyBytes) ∧
      (8 * bodyBytes.length < 20 → decodeStationList bodyBytes = .ok []) := by
  refine ⟨decodeStationList_readUint bodyBytes, ?_, ?_, ?_⟩
  · rw [decodeStationList_readUint]
    simp [Except.map]
  · intro other hlen htake
    rw [decodeStationList_bits, decodeStationList_bits]
    have h1 := (byteArrayToBinaryString_spec other).1
    have h2 := (byteArrayToBinaryString_spec bodyBytes).1
    rw [h1, h2, hlen]
    congr 1
    apply List.map_congr_left
    intro k hk
    have hk' : k < 8 * bodyBytes.length / 20 := List.mem_range.1 hk
    rw [take_drop_congr htake (20 * k + 10) 10 (by omega),
      take_drop_congr htake (20 * k) 10 (by omega)]
  · intro h
    rw [decodeStationList_readUint]
    have e : 8 * bodyBytes.length / 20 = 0 := by omega
    simp [e]

theorem decodeStationList_groups_witness :
    decodeStationList [0xFF, 0xFF] = .ok [] :=
  (decodeStationList_groups [0xFF, 0xFF]).2.2.2 (by decide)

theorem bytesValue_encodeStation (L G : Int) (pad : Nat) :
    bytesValue (encodeStation L G pad) =
      ((L - 3000).toNat % 1024 * 1024 + (G - 12000).toNat % 1024) * 16 + pad % 16 := by
  have hv : ∀ x : Nat, ((Fin.ofNat x : Byte) : Nat) = x % 256 := fun _ => rfl
  simp only [encodeStation, bytesValue, List.foldl, hv]
  omega

/-- C5: station list round trip.  For every latitude `L` in `[3000,4023]` and longitude `G` in
`[12000,13023]`, the three bytes that hold the 10-bit values `L-3000` and `G-12000` packed
most significant bit first, followed by any four padding bits, decode to exactly one station
with latitude `L` and longitude `G`. -/
theorem station_round_trip (L G : Int) (pad : Nat) (hL : 3000 ≤ L ∧ L ≤ 4023)
    (hG : 12000 ≤ G ∧ G ≤ 13023) :
    decodeStationList (encodeStation L G pad) = .ok [{ Longitude := G, Latitude := L }] := by
  rw [decodeStationList_readUint]
  have hlen : (encodeStation L G pad).length = 3 := rfl
  have r0 : readUint (encodeStation L G pad) 0 10 = (L - 3000).toNat := by
    unfold readUint
    rw [bytesValue_encodeStation, hlen]
    norm_num
    omega
  have r1 : readUint (encodeStation L G pad) 10 10 = (G - 12000).toNat := by
    unfold readUint
    rw [bytesValue_encodeStation, hlen]
    norm_num
    omega
  rw [hlen]
  have hr : List.range (8 * 3 / 20) = [0] := rfl
  simp only [hr, List.map_cons, List.map_nil, Nat.mul_zero, Nat.zero_add, r0, r1]
  have e0 : (((L - 3000).toNat : Nat) : Int) = L - 3000 := by omega
  have e1 : (((G - 12000).toNat : Nat) : Int) = G - 12000 := by omega
  rw [e0, e1]
  congr 3 <;> ring

theorem station_round_trip_witness :
    decodeStationList (encodeStation 3512 12789 5) =
      .ok [{ Longitude := 12789, Latitude := 3512 }] :=
  station_round_trip 3512 12789 5 (by decide) (by decide)

/-! ## Bit extraction -/

theorem sliceMap_field (bytes : List Byte) (o l : Nat) (hl : o + l ≤ 8 * bytes.length)
    (h63 : l ≤ 63) :
    (slice (byteArrayToBinaryString bytes) (o : Int) ((o : Int) + (l : Int))).map
        binaryStringToInt = .ok (readUint bytes o l : Int) := by
  rw [slice_nat _ o l (by rw [(byteArrayToBinaryString_spec bytes).1]; exact hl)]
  simp only [Except.map]
  rw [binaryStringToInt_field bytes o l hl h63]

set_option maxRecDepth 100000 in
/-- C7, as stated, fails: on eight bytes `0xFF`, offset 0 and length 64 the code computes `-1`
in the 64-bit type `int`, whereas the shift-and-mask value is `2^64 - 1`. -/
theorem binaryStringToInt_field_64_counterexample :
    (0 : Nat) + 64 ≤ 8 * (List.replicate 8 (0xFF : Byte)).length ∧
      (slice (byteArrayToBinaryString (List.replicate 8 0xFF)) ((0 : Nat) : Int)
          (((0 : Nat) : Int) + ((64 : Nat) : Int))).map binaryStringToInt = .ok (-1) ∧
      readUint (List.replicate 8 0xFF) 0 64 = 2 ^ 64 - 1 ∧
      (slice (byteArrayToBinaryString (List.replicate 8 0xFF)) ((0 : Nat) : Int)
          (((0 : Nat) : Int) + ((64 : Nat) : Int))).map binaryStringToInt ≠
        .ok (readUint (List.replicate 8 0xFF) 0 64 : Int) := by
  refine ⟨by decide, by rfl, by rfl, ?_⟩
  intro h
  have h1 : (slice (byteArrayToBinaryString (List.replicate 8 0xFF)) ((0 : Nat) : Int)
          (((0 : Nat) : Int) + ((64 : Nat) : Int))).map binaryStringToInt = .ok (-1) := by rfl
  have h2 : readUint (List.replicate 8 0xFF) 0 64 = 2 ^ 64 - 1 := by rfl
  rw [h1, h2] at h
  injection h with h
  norm_num at h

/-- C7 (amended): bit extraction is MSB-first big-endian and equals shift/mask arithmetic for
fields of at most 63 bits.  For every byte sequence of `n` bytes, offset `o` and length
`l ≤ 63` with `o + l ≤ 8n`, the slice `[o:o+l]` of the bit string is in range and
`binaryStringToInt` of it equals `(V / 2^(8n-o-l)) mod 2^l`, `V` being the big-endian
unsigned value of the byte sequence. -/
theorem binaryStringToInt_slice_eq_readUint (bytes : List Byte) (o l : Nat)
    (hl : o + l ≤ 8 * bytes.length) (h63 : l ≤ 63) :
    (slice (byteArrayToBinaryString bytes) (o : Int) ((o : Int) + (l : Int))).map
        binaryStringToInt =
      .ok ((bytesValue bytes / 2 ^ (8 * bytes.length - o - l) % 2 ^ l : Nat) : Int) :=
  sliceMap_field bytes o l hl h63

set_option maxRecDepth 100000 in
theorem binaryStringToInt_slice_eq_readUint_witness :
    (slice (byteArrayToBinaryString [0xA5, 0x3C]) ((3 : Nat) : Int)
        (((3 : Nat) : Int) + ((7 : Nat) : Int))).map binaryStringToInt =
      .ok ((bytesValue [0xA5, 0x3C] / 2 ^ (8 * [(0xA5 : Byte), 0x3C].length - 3 - 7) % 2 ^ 7 : Nat) : Int) :=
  binaryStringToInt_slice_eq_readUint [0xA5, 0x3C] 3 7 (by decide) (by decide)

/-! ## Header of the station data -/

theorem index_getD {α : Type} (s : List α) (i : Nat) (d : α) (h : i < s.length) :
    index s (i : Int) = .ok (s.getD i d) := by
  rw [index_nat s i h, List.getD_eq_getElem _ _ h]
  rfl

theorem index_of_eq {α : Type} (s : List α) (x : Int) (i : Nat) (d : α) (hx : x = (i : Int))
    (h : i < s.length) : index s x = .ok (s.getD i d) := by
  subst hx
  exact index_getD s i d h

theorem strValue_field (bs : List Byte) (o l : Nat) (hl : o + l ≤ 8 * bs.length) :
    strValue (((byteArrayToBinaryString bs).drop o).take l) = readUint bs o l := by
  obtain ⟨hlen, hbin, hval⟩ := byteArrayToBinaryString_spec bs
  have hv := strValue_slice _ hbin o l (by omega)
  rw [hlen, hval] at hv
  exact hv

theorem binaryStringToInt_short (s : GoString) (h : s.length ≤ 54) :
    binaryStringToInt s = (strValue s : Int) := by
  apply binaryStringToInt_eq
  have h1 := strValue_le s
  have h2 : 2 ^ s.length ≤ 2 ^ 54 := Nat.pow_le_pow_right (by norm_num) h
  have h3 : 255 * 2 ^ 54 < 2 ^ 63 := by norm_num
  omega

theorem parseStationDataHeader_eq (simulation : Option SimulationData)
    (headerString : GoString) (message : EarthquakeMessage)
    (hlen : (if simulation.isNone then 32 else 3) ≤ headerString.length) :
    parseStationDataHeader simulation headerString message =
      .ok { StationUpdateNeeded := decide (headerString.getD 0 '0' = '1')
            Phase := phaseOfCode ((headerString.drop 1).take 2)
            LastEarthquakeId :=
              if simulation.isNone then
                '2' :: '0' :: Itoa (binaryStringToInt ((headerString.drop 6).take 26))
              else message.LastEarthquakeId
            MMI := message.MMI
            EarthquakeInfo := message.EarthquakeInfo } := by
  have h3 : 3 ≤ headerString.length := by split at hlen <;> omega
  unfold parseStationDataHeader
  rw [index_of_eq headerString 0 0 '0' rfl (by omega),
    slice_of_eq headerString 1 3 1 2 rfl rfl (by omega)]
  simp only [bind, Except.bind]
  by_cases hs : simulation.isNone = true
  · rw [if_pos hs] at hlen
    rw [if_pos hs, if_pos hs, slice_of_eq headerString 6 32 6 26 rfl rfl (by omega)]
    rfl
  · rw [if_neg hs, if_neg hs]
    rfl

theorem phaseOfCode_ne_zero (code : GoString) : phaseOfCode code ≠ 0 := by
  unfold phaseOfCode
  split_ifs <;> decide

/-- C1: for every header that is long enough to be decoded (32 characters in real-time mode,
at least 3 in simulation mode), `parseStationDataHeader` succeeds and sets `Phase` from the
code `headerString[1:3]` exactly by the table `00 -> PhaseNormal (1)`, `01 -> PhaseUpdateInfo
(4)`, `10 -> PhaseAlert (2)`, `11 -> PhaseInfo (3)`; the phase is never the zero value. -/
theorem parseStationDataHeader_phase_table (simulation : Option SimulationData)
    (headerString : GoString) (message : EarthquakeMessage)
    (hlen : (if simulation.isNone then 32 else 3) ≤ headerString.length) :
    ∃ m, parseStationDataHeader simulation headerString message = .ok m ∧
      (slice headerString 1 3 = .ok ['0', '0'] → m.Phase = PhaseNormal ∧ m.Phase = 1) ∧
      (slice headerString 1 3 = .ok ['0', '1'] → m.Phase = PhaseUpdateInfo ∧ m.Phase = 4) ∧
      (slice headerString 1 3 = .ok ['1', '0'] → m.Phase = PhaseAlert ∧ m.Phase = 2) ∧
      (slice headerString 1 3 = .ok ['1', '1'] → m.Phase = PhaseInfo ∧ m.Phase = 3) ∧
      m.Phase ≠ 0 := by
  have h3 : 3 ≤ headerString.length := by split at hlen <;> omega
  have hs := slice_of_eq headerString 1 3 1 2 rfl rfl (by omega)
  refine ⟨_, parseStationDataHeader_eq simulation headerString message hlen, ?_, ?_, ?_, ?_, ?_⟩
  · intro h
    rw [hs] at h
    injection h with h
    simp only [h]
    exact ⟨rfl, rfl⟩
  · intro h
    rw [hs] at h
    injection h with h
    simp only [h]
    exact ⟨rfl, rfl⟩
  · intro h
    rw [hs] at h
    injection h with h
    simp only [h]
    exact ⟨rfl, rfl⟩
  · intro h
    rw [hs] at h
    injection h with h
    simp only [h]
    exact ⟨rfl, rfl⟩
  · exact phaseOfCode_ne_zero _

theorem parseStationDataHeader_phase_table_witness :
    ∃ m, parseStationDataHeader none "01000000000000000000000000000001".toList zeroMessage = .ok m ∧
      m.Phase = 2 := by
  obtain ⟨m, hm, _, _, h10, _, _⟩ :=
    parseStationDataHeader_phase_table none "01000000000000000000000000000001".toList zeroMessage
      (by decide)
  exact ⟨m, hm, (h10 (by rfl)).2⟩

/-! ## Body of the station data -/

theorem mmiLoop_eq (body : GoString) (n : Int) :
    ∀ fuel i acc, n.toNat - i < fuel →
      (∀ j : Nat, i ≤ j → (j : Int) < n →
        4 * j + 4 ≤ body.length ∧ binaryStringToInt ((body.drop (4 * j)).take 4) < 15) →
      mmiLoop body n fuel i acc =
        .ok (acc ++ (List.range' i (n.toNat - i)).map (fun j =>
          mmiConvertArray.getD (strValue ((body.drop (4 * j)).take 4)) 0)) := by
  intro fuel
  induction fuel with
  | zero => intro i acc h; omega
  | succ fuel ih =>
    intro i acc hf hok
    unfold mmiLoop
    by_cases hlt : (i : Int) < n
    · rw [if_pos hlt]
      obtain ⟨hlen, hv⟩ := hok i le_rfl hlt
      have hshort : ((body.drop (4 * i)).take 4).length ≤ 54 := by
        simp only [List.length_take]; omega
      rw [binaryStringToInt_short _ hshort] at hv
      have hv' : strValue ((body.drop (4 * i)).take 4) < 15 := by exact_mod_cast hv
      rw [slice_of_eq body _ _ (4 * i) 4 (by push_cast; ring) (by push_cast; ring) hlen]
      simp only [bind, Except.bind]
      rw [binaryStringToInt_short _ hshort,
        index_of_eq mmiConvertArray _ _ 0 rfl (by simpa [mmiConvertArray] using hv')]
      simp only []
      rw [ih (i + 1) _ (by omega) (fun j hj hjn => hok j (by omega) hjn)]
      have e2 : n.toNat - i = (n.toNat - (i + 1)) + 1 := by omega
      rw [e2, List.range'_succ]
      simp
    · rw [if_neg hlt]
      have e : n.toNat - i = 0 := by omega
      simp [e]

theorem mmiLoop_of_regionOk (body : GoString) (n : Int) (acc : List Int)
    (h : MMIRegionOk body n) :
    mmiLoop body n (n.toNat + 1) 0 acc =
      .ok (acc ++ (List.range n.toNat).map (fun j =>
        mmiConvertArray.getD (strValue ((body.drop (4 * j)).take 4)) 0)) := by
  have := mmiLoop_eq body n (n.toNat + 1) 0 acc (by omega) (fun j _ hj => h j hj)
  simpa [List.range_eq_range'] using this


theorem ok_bind {α β : Type} (a : α) (f : α → Except Panic β) :
    (Except.ok a >>= f) = f a := rfl

theorem pure_eq_ok {α : Type} (a : α) : (pure a : Except Panic α) = .ok a := rfl

theorem areaFold_eq (block : GoString) (h : 116 ≤ block.length) :
    ∀ (is : List Nat) (acc : List GoString), (∀ i ∈ is, 99 ≤ i ∧ i < 116) →
      is.foldlM
        (fun area (i : Nat) => do
          let c ← index block (i : Int)
          if c = '1' then
            let name ← index areaNames ((i : Int) - 99)
            pure (area ++ [name])
          else
            pure area)
        acc =
      (.ok (acc ++ (is.filter (fun i => decide (block.getD i '0' = '1'))).map
        (fun i => areaNames.getD (i - 99) [])) : Except Panic (List GoString)) := by
  intro is
  induction is with
  | nil => intro acc _; simp [List.foldlM, pure, Except.pure]
  | cons i is ih =>
    intro acc hall
    obtain ⟨h99, h116⟩ := hall i (List.mem_cons_self _ _)
    have hrest : ∀ j ∈ is, 99 ≤ j ∧ j < 116 := fun j hj => hall j (List.mem_cons_of_mem _ hj)
    rw [List.foldlM_cons, index_getD block i '0' (by omega), ok_bind]
    by_cases hc : block.getD i '0' = '1'
    · rw [if_pos hc, index_of_eq areaNames _ (i - 99) [] (by omega)
        (by simp only [areaNames, List.length_cons, List.length_nil]; omega), ok_bind,
        pure_eq_ok, ok_bind, ih _ hrest, List.filter_cons_of_pos (by simpa using hc)]
      simp
    · rw [if_neg hc, pure_eq_ok, ok_bind, ih _ hrest,
        List.filter_cons_of_neg (by simpa using hc)]

theorem areaLoop_eq (block : GoString) (acc : List GoString) (h : 116 ≤ block.length) :
    areaLoop block acc =
      .ok (acc ++ ((List.range' 99 17).filter (fun i => decide (block.getD i '0' = '1'))).map
        (fun i => areaNames.getD (i - 99) [])) := by
  unfold areaLoop
  apply areaFold_eq block h
  intro i hi
  simp only [List.mem_range'_1] at hi
  omega

theorem earthquakeBlock_length (body : GoString) (h : 600 ≤ body.length) :
    (earthquakeBlock body).length = 600 := by
  simp only [earthquakeBlock, List.length_drop]; omega

theorem sliceFrom_block (body : GoString) (h : 600 ≤ body.length) :
    sliceFrom body ((body.length : Int) - 600) = .ok (earthquakeBlock body) := by
  unfold sliceFrom
  rw [slice_of_eq body _ _ (body.length - 600) 600 (by omega) (by omega) (by omega)]
  rw [List.take_of_length_le (by simp only [List.length_drop]; omega)]
  rfl

theorem parseStationDataBody_alert (body : GoString) (n : Int) (msg : EarthquakeMessage)
    (hphase : msg.Phase = PhaseAlert ∨ msg.Phase = PhaseInfo) (hlen : 600 ≤ body.length)
    (hmmi : MMIRegionOk body n) :
    parseStationDataBody body n msg =
      .ok { StationUpdateNeeded := msg.StationUpdateNeeded
            Phase := msg.Phase
            LastEarthquakeId := msg.LastEarthquakeId
            MMI := msg.MMI ++ (List.range n.toNat).map (fun j =>
              mmiConvertArray.getD (strValue ((body.drop (4 * j)).take 4)) 0)
            EarthquakeInfo :=
              { Longitude :=
                  12000 + binaryStringToInt (((earthquakeBlock body).drop 10).take 10)
                Latitude := 3000 + binaryStringToInt (((earthquakeBlock body).drop 0).take 10)
                EarthquakeId :=
                  '2' :: '0' :: Itoa (binaryStringToInt (((earthquakeBlock body).drop 69).take 26))
                Magnitude := toInt8 (binaryStringToInt (((earthquakeBlock body).drop 20).take 7))
                Depth := toInt8 (binaryStringToInt (((earthquakeBlock body).drop 27).take 9))
                Time :=
                  Itoa (binaryStringToInt (((earthquakeBlock body).drop 36).take 33) + 32400) ++
                    ['0', '0', '0']
                MaxIntensity :=
                  toInt8 (binaryStringToInt (((earthquakeBlock body).drop 95).take 4))
                MaxIntensityArea :=
                  if ((earthquakeBlock body).drop 99).take 17 = List.replicate 17 '1' then []
                  else
                    msg.EarthquakeInfo.MaxIntensityArea ++
                      ((List.range' 99 17).filter
                        (fun i => decide ((earthquakeBlock body).getD i '0' = '1'))).map
                        (fun i => areaNames.getD (i - 99) [])
                Epicenter := msg.EarthquakeInfo.Epicenter } } := by
  have hb := earthquakeBlock_length body hlen
  unfold parseStationDataBody
  rw [mmiLoop_of_regionOk body n _ hmmi]
  simp only [bind, Except.bind]
  rw [if_pos hphase, sliceFrom_block body hlen]
  simp only []
  rw [slice_of_eq (earthquakeBlock body) 0 10 0 10 rfl rfl (by omega),
    slice_of_eq (earthquakeBlock body) 10 20 10 10 rfl rfl (by omega),
    slice_of_eq (earthquakeBlock body) 20 27 20 7 rfl rfl (by omega),
    slice_of_eq (earthquakeBlock body) 27 36 27 9 rfl rfl (by omega),
    slice_of_eq (earthquakeBlock body) 36 69 36 33 rfl rfl (by omega),
    slice_of_eq (earthquakeBlock body) 69 95 69 26 rfl rfl (by omega),
    slice_of_eq (earthquakeBlock body) 95 99 95 4 rfl rfl (by omega),
    slice_of_eq (earthquakeBlock body) 99 116 99 17 rfl rfl (by omega)]
  simp only []
  by_cases hm : ((earthquakeBlock body).drop 99).take 17 = List.replicate 17 '1'
  · rw [if_pos hm, if_pos hm]
    rfl
  · rw [if_neg hm, if_neg hm, areaLoop_eq _ _ (by omega)]
    rfl

theorem parseStationDataBody_quiet (body : GoString) (n : Int) (msg : EarthquakeMessage)
    (hphase : ¬ (msg.Phase = PhaseAlert ∨ msg.Phase = PhaseInfo)) (hmmi : MMIRegionOk body n) :
    parseStationDataBody body n msg =
      .ok { msg with
            MMI := msg.MMI ++ (List.range n.toNat).map (fun j =>
              mmiConvertArray.getD (strValue ((body.drop (4 * j)).take 4)) 0) } := by
  unfold parseStationDataBody
  rw [mmiLoop_of_regionOk body n _ hmmi]
  simp only [bind, Except.bind]
  rw [if_neg hphase]
  rfl


set_option maxRecDepth 100000 in
/-- C2 (code defect): the body `1111` with one station satisfies `4 * stationCount <= body
length`, yet `parseStationDataBody` on the fresh message panics with an index out of range
and produces no MMI sequence at all. -/
theorem parseStationDataBody_nibble15_no_mmi :
    4 * 1 ≤ ['1', '1', '1', '1'].length ∧
      parseStationDataBody ['1', '1', '1', '1'] 1 zeroMessage =
        .error (.indexOutOfRange 15 15) :=
  ⟨by decide, rfl⟩

set_option maxRecDepth 100000 in
/-- C3 (code defect): in real-time mode, on a payload whose first station nibble is 15 the
decoding path looks up `mmiConvertArray[15]` in the 15-entry table with no guard and no
default, so the run ends in the run-time index-out-of-range panic. -/
theorem stationDataDecode_nibble15_panics :
    readUint [0x00, 0x00, 0x00, 0x00, 0xF0] 32 4 = 15 ∧
      mmiConvertArray.length = 15 ∧
      index mmiConvertArray 15 = .error (.indexOutOfRange 15 15) ∧
      stationDataDecode none [0x00, 0x00, 0x00, 0x00, 0xF0] 1 =
        .error (.indexOutOfRange 15 15) :=
  ⟨by rfl, rfl, rfl, rfl⟩

set_option exponentiation.threshold 1000 in
set_option maxRecDepth 1000000 in
/-- C4 (code defect): on a real-time Alert payload whose 9-bit depth field holds 200, the
decoder stores `int8(200) = -56` in `Depth`. -/
theorem stationDataDecode_depth_200 :
    readUint ([0x40, 0, 0, 0] ++ [0, 0, 0, 0x0C, 0x80] ++ List.replicate 70 0) (32 + 27) 9 = 200 ∧
      (stationDataDecode none ([0x40, 0, 0, 0] ++ [0, 0, 0, 0x0C, 0x80] ++ List.replicate 70 0)
          0).map (fun m => (m.Phase, m.EarthquakeInfo.Depth)) = .ok (PhaseAlert, -56) :=
  ⟨by rfl, by rfl⟩


/-- C9: for every body decoded with phase Alert or Info (at least 600 bits, decodable MMI
region) whose 17-bit area mask at block bits `[99,116)` is all ones, decoding succeeds and
`MaxIntensityArea` is the empty sequence, whatever the other bits of the body and the other
fields of the incoming message are.  The two decodability conditions are exactly those under
which `parseStationDataBody` returns (`parseStationDataBody_ok_requires`). -/
theorem maxIntensityArea_all_ones (bodyString : GoString) (stationLength : Int)
    (message : EarthquakeMessage)
    (hphase : message.Phase = PhaseAlert ∨ message.Phase = PhaseInfo)
    (hlen : 600 ≤ bodyString.length) (hmmi : MMIRegionOk bodyString stationLength)
    (hmask : ((earthquakeBlock bodyString).drop 99).take 17 = List.replicate 17 '1') :
    ∃ m, parseStationDataBody bodyString stationLength message = .ok m ∧
      m.EarthquakeInfo.MaxIntensityArea = [] := by
  refine ⟨_, parseStationDataBody_alert bodyString stationLength message hphase hlen hmmi, ?_⟩
  simp only [hmask, if_true]

set_option maxRecDepth 100000 in
theorem maxIntensityArea_all_ones_witness :
    ∃ m, parseStationDataBody
        (List.replicate 99 '0' ++ List.replicate 17 '1' ++ List.replicate 484 '0') 0
        { zeroMessage with Phase := PhaseInfo } = .ok m ∧
      m.EarthquakeInfo.MaxIntensityArea = [] :=
  maxIntensityArea_all_ones
    (List.replicate 99 '0' ++ List.replicate 17 '1' ++ List.replicate 484 '0') 0
    { zeroMessage with Phase := PhaseInfo } (Or.inr rfl) (by decide)
    (fun j hj => absurd hj (by omega)) (by rfl)

theorem range'_99_17 : List.range' 99 17 = (List.range 17).map (fun i => i + 99) := by rfl

theorem area_filter_eq (block : GoString) :
    ((List.range' 99 17).filter (fun i => decide (block.getD i '0' = '1'))).map
        (fun i => areaNames.getD (i - 99) []) =
      ((List.range 17).filter
          (fun i => decide (((block.drop 99).take 17).getD i '0' = '1'))).map
        (fun i => areaNames.getD i []) := by
  rw [range'_99_17, List.filter_map, List.map_map]
  have hf : ∀ i ∈ List.range 17,
      ((fun i => decide (block.getD i '0' = '1')) ∘ fun i => i + 99) i =
        decide (((block.drop 99).take 17).getD i '0' = '1') := by
    intro i hi
    have hi' : i < 17 := List.mem_range.1 hi
    simp only [Function.comp, List.getD_eq_getElem?_getD, List.getElem?_take, hi', if_true,
      List.getElem?_drop, Nat.add_comm]
  rw [List.filter_congr hf]
  apply List.map_congr_left
  intro i _
  simp

set_option maxRecDepth 100000 in
/-- C10: for every body decoded with phase Alert or Info (at least 600 bits, decodable MMI
region) into a message whose `MaxIntensityArea` is still empty, if the 17-bit area mask at
block bits `[99,116)` is not all ones then decoding succeeds and `MaxIntensityArea` is the
list of the entries `i` of the fixed 17-name table whose mask bit `i` is `1`, in increasing
order of `i`; in particular the mask `00000000000000001` yields the single name `제주`. -/
theorem maxIntensityArea_of_mask (bodyString : GoString) (stationLength : Int)
    (message : EarthquakeMessage)
    (hphase : message.Phase = PhaseAlert ∨ message.Phase = PhaseInfo)
    (hlen : 600 ≤ bodyString.length) (hmmi : MMIRegionOk bodyString stationLength)
    (hfresh : message.EarthquakeInfo.MaxIntensityArea = [])
    (hmask : ((earthquakeBlock bodyString).drop 99).take 17 ≠ List.replicate 17 '1') :
    ∃ m, parseStationDataBody bodyString stationLength message = .ok m ∧
      m.EarthquakeInfo.MaxIntensityArea =
        ((List.range 17).filter (fun i =>
          decide ((((earthquakeBlock bodyString).drop 99).take 17).getD i '0' = '1'))).map
          (fun i =>
            (["서울".toList, "부산".toList, "대구".toList, "인천".toList, "광주".toList,
              "대전".toList, "울산".toList, "세종".toList, "경기".toList, "강원".toList,
              "충북".toList, "충남".toList, "전북".toList, "전남".toList, "경북".toList,
              "경남".toList, "제주".toList] : List GoString).getD i []) ∧
      (((earthquakeBlock bodyString).drop 99).take 17 = "00000000000000001".toList →
        m.EarthquakeInfo.MaxIntensityArea = ["제주".toList]) := by
  have harea : ∀ m, parseStationDataBody bodyString stationLength message = .ok m →
      m.EarthquakeInfo.MaxIntensityArea =
        ((List.range 17).filter (fun i =>
          decide ((((earthquakeBlock bodyString).drop 99).take 17).getD i '0' = '1'))).map
          (fun i => areaNames.getD i []) := by
    intro m hm
    rw [parseStationDataBody_alert bodyString stationLength message hphase hlen hmmi] at hm
    injection hm with hm
    subst hm
    simp only [if_neg hmask, hfresh, List.nil_append]
    exact area_filter_eq _
  refine ⟨_, parseStationDataBody_alert bodyString stationLength message hphase hlen hmmi, ?_, ?_⟩
  · exact harea _ (parseStationDataBody_alert bodyString stationLength message hphase hlen hmmi)
  · intro h
    rw [harea _ (parseStationDataBody_alert bodyString stationLength message hphase hlen hmmi),
      h]
    rfl

set_option maxRecDepth 100000 in
theorem maxIntensityArea_of_mask_witness :
    ∃ m, parseStationDataBody
        (List.replicate 99 '0' ++ "10000000000000001".toList ++ List.replicate 484 '0') 0
        { zeroMessage with Phase := PhaseAlert } = .ok m ∧
      m.EarthquakeInfo.MaxIntensityArea = ["서울".toList, "제주".toList] := by
  obtain ⟨m, hm, harea, _⟩ := maxIntensityArea_of_mask
    (List.replicate 99 '0' ++ "10000000000000001".toList ++ List.replicate 484 '0') 0
    { zeroMessage with Phase := PhaseAlert } (Or.inl rfl) (by decide)
    (fun j hj => absurd hj (by omega)) rfl (by decide)
  exact ⟨m, hm, harea.trans (by rfl)⟩

/-! ## Station data decoding path -/

theorem sliceTo_nat {α : Type} (s : List α) (H : Nat) (h : H ≤ s.length) :
    sliceTo s (H : Int) = .ok (s.take H) := by
  unfold sliceTo
  rw [slice_of_eq s 0 _ 0 H rfl (by omega) (by omega)]
  rfl

theorem sliceFrom_nat {α : Type} (s : List α) (H : Nat) (h : H ≤ s.length) :
    sliceFrom s (H : Int) = .ok (s.drop H) := by
  unfold sliceFrom
  rw [slice_of_eq s _ _ H (s.length - H) rfl (by omega) (by omega),
    List.take_of_length_le (by simp only [List.length_drop]; omega)]

theorem decodeStationData_split (simulation : Option SimulationData) (H : Nat)
    (bodyBytes : List Byte) (n : Int) (hH : (if simulation.isNone then 32 else 3) ≤ H)
    (hlen : H ≤ 8 * bodyBytes.length) :
    decodeStationData simulation (H : Int) bodyBytes n =
      (parseStationDataBody ((byteArrayToBinaryString bodyBytes).drop H) n
          { StationUpdateNeeded :=
              decide (((byteArrayToBinaryString bodyBytes).take H).getD 0 '0' = '1')
            Phase := phaseOfCode ((((byteArrayToBinaryString bodyBytes).take H).drop 1).take 2)
            LastEarthquakeId :=
              if simulation.isNone then
                '2' :: '0' :: Itoa (binaryStringToInt
                  ((((byteArrayToBinaryString bodyBytes).take H).drop 6).take 26))
              else zeroMessage.LastEarthquakeId
            MMI := zeroMessage.MMI
            EarthquakeInfo := zeroMessage.EarthquakeInfo } >>= fun message =>
        if message.Phase = PhaseAlert ∨ message.Phase = PhaseInfo then
          sliceFrom bodyBytes ((bodyBytes.length : Int) - 60) >>= fun tail =>
            pure { message with
              EarthquakeInfo :=
                { message.EarthquakeInfo with
                  Epicenter := Trim (bytesToString tail) [Char.ofNat 0, Char.ofNat 32] } }
        else pure message) := by
  have hs := (byteArrayToBinaryString_spec bodyBytes).1
  unfold decodeStationData
  dsimp only
  rw [sliceTo_nat _ H (by omega), sliceFrom_nat _ H (by omega)]
  simp only [ok_bind]
  rw [parseStationDataHeader_eq simulation _ zeroMessage
    (by rw [List.length_take]; omega)]
  rfl

theorem phase_alert_or_info_iff (s : GoString) (hb : IsBinary s) (h : 3 ≤ s.length) :
    (phaseOfCode ((s.drop 1).take 2) = PhaseAlert ∨ phaseOfCode ((s.drop 1).take 2) = PhaseInfo) ↔
      strValue ((s.drop 1).take 1) = 1 := by
  match s, hb, h with
  | _ :: a :: b :: rest, hb, _ =>
    have ha := hb a (by simp)
    have hb' := hb b (by simp)
    simp only [List.drop_succ_cons, List.drop_zero, List.take_succ_cons, List.take_zero]
    rcases ha with rfl | rfl <;> rcases hb' with rfl | rfl <;> decide


theorem mmiRegionOk_of_readUint (bodyBytes : List Byte) (H stationLength : Nat)
    (hlen : H + 4 * stationLength ≤ 8 * bodyBytes.length)
    (hnib : ∀ i < stationLength, readUint bodyBytes (H + 4 * i) 4 ≤ 14) :
    MMIRegionOk ((byteArrayToBinaryString bodyBytes).drop H) (stationLength : Int) := by
  intro j hj
  have hj' : j < stationLength := by omega
  have hs := (byteArrayToBinaryString_spec bodyBytes).1
  refine ⟨by rw [List.length_drop, hs]; omega, ?_⟩
  rw [List.drop_drop, binaryStringToInt_field bodyBytes (H + 4 * j) 4 (by omega) (by norm_num)]
  have := hnib j hj'
  omega

theorem mmi_map_readUint (bodyBytes : List Byte) (H stationLength : Nat)
    (hlen : H + 4 * stationLength ≤ 8 * bodyBytes.length) :
    (List.range stationLength).map (fun j =>
        mmiConvertArray.getD
          (strValue ((((byteArrayToBinaryString bodyBytes).drop H).drop (4 * j)).take 4)) 0) =
      (List.range stationLength).map (fun j =>
        mmiConvertArray.getD (readUint bodyBytes (H + 4 * j) 4) 0) := by
  apply List.map_congr_left
  intro j hj
  have hj' : j < stationLength := List.mem_range.1 hj
  rw [List.drop_drop, strValue_field bodyBytes (H + 4 * j) 4 (by omega)]

theorem header_phase_iff (bodyBytes : List Byte) (H : Nat) (h3 : 3 ≤ H)
    (hlen : H ≤ 8 * bodyBytes.length) :
    (phaseOfCode ((((byteArrayToBinaryString bodyBytes).take H).drop 1).take 2) = PhaseAlert ∨
      phaseOfCode ((((byteArrayToBinaryString bodyBytes).take H).drop 1).take 2) = PhaseInfo) ↔
      readUint bodyBytes 1 1 = 1 := by
  obtain ⟨hs, hb, _⟩ := byteArrayToBinaryString_spec bodyBytes
  rw [phase_alert_or_info_iff _ (hb.take H) (by rw [List.length_take]; omega)]
  have e : (((byteArrayToBinaryString bodyBytes).take H).drop 1).take 1 =
      ((byteArrayToBinaryString bodyBytes).drop 1).take 1 :=
    take_drop_congr (m := H) (by rw [List.take_take, Nat.min_self]) 1 1 (by omega)
  rw [e, strValue_field bodyBytes 1 1 (by omega)]

theorem stationDataDecode_ok_mmi (simulation : Option SimulationData) (bodyBytes : List Byte)
    (stationLength H : Nat) (hH : H = if simulation.isSome then 8 else 32)
    (hlen : H + 4 * stationLength ≤ 8 * bodyBytes.length)
    (hnib : ∀ i < stationLength, readUint bodyBytes (H + 4 * i) 4 ≤ 14)
    (hblock : readUint bodyBytes 1 1 = 1 → H + 600 ≤ 8 * bodyBytes.length) :
    ∃ m, stationDataDecode simulation bodyBytes stationLength = .ok m ∧
      m.MMI = (List.range stationLength).map (fun i =>
        mmiConvertArray.getD (readUint bodyBytes (H + 4 * i) 4) 0) := by
  have hsize : headerSizeOf simulation = (H : Int) := by
    unfold headerSizeOf
    rw [hH]
    split <;> rfl
  have hH3 : (if simulation.isNone then 32 else 3) ≤ H := by
    rw [hH]
    cases simulation <;> simp
  have h3 : 3 ≤ H := by rw [hH]; split <;> omega
  have hs := (byteArrayToBinaryString_spec bodyBytes).1
  have hmmi := mmiRegionOk_of_readUint bodyBytes H stationLength hlen hnib
  have hmap := mmi_map_readUint bodyBytes H stationLength hlen
  unfold stationDataDecode
  rw [hsize, decodeStationData_split simulation H bodyBytes _ hH3 (by omega)]
  by_cases hp : readUint bodyBytes 1 1 = 1
  · have hphase := (header_phase_iff bodyBytes H h3 (by omega)).2 hp
    have h600 := hblock hp
    rw [parseStationDataBody_alert _ _ _ hphase (by rw [List.length_drop, hs]; omega) hmmi,
      ok_bind]
    rw [if_pos hphase]
    unfold sliceFrom
    rw [slice_of_eq bodyBytes _ _ (bodyBytes.length - 60) 60 (by omega) (by omega) (by omega),
      ok_bind, pure_eq_ok]
    refine ⟨_, rfl, ?_⟩
    simp only [Int.toNat_ofNat, zeroMessage, List.nil_append]
    exact hmap
  · have hphase := mt (header_phase_iff bodyBytes H h3 (by omega)).1 hp
    rw [parseStationDataBody_quiet _ _ _ hphase hmmi, ok_bind]
    rw [if_neg hphase, pure_eq_ok]
    refine ⟨_, rfl, ?_⟩
    simp only [Int.toNat_ofNat, zeroMessage, List.nil_append]
    exact hmap


/-- C8: for every input that holds `stationLength` station nibbles after the header, all in
`0..14` (and, when the status code announces Alert or Info, a body of at least 600 bits),
the decoding path succeeds and `MMI[i]` is `table[v_i]` for the table
`[1,1,2,3,4,5,6,7,8,9,10,10,1,1,1]`, `v_i` being the unsigned value of the 4 bits at absolute
bit offset `H + 4i`; the header width `H` is 32 in real-time mode and 8 in simulation mode,
and the values appear in station order. -/
theorem stationDataDecode_mmi_table (simulation : Option SimulationData)
    (bodyBytes : List Byte) (stationLength H : Nat)
    (hH : H = if simulation.isSome then 8 else 32)
    (hlen : H + 4 * stationLength ≤ 8 * bodyBytes.length)
    (hnib : ∀ i < stationLength, readUint bodyBytes (H + 4 * i) 4 ≤ 14)
    (hblock : readUint bodyBytes 1 1 = 1 → H + 600 ≤ 8 * bodyBytes.length) :
    ∃ m, stationDataDecode simulation bodyBytes stationLength = .ok m ∧
      m.MMI.length = stationLength ∧
      ∀ i, i < stationLength →
        m.MMI[i]? =
          ([1, 1, 2, 3, 4, 5, 6, 7, 8, 9, 10, 10, 1, 1, 1] : List Int)[readUint bodyBytes
            (H + 4 * i) 4]? := by
  obtain ⟨m, hm, hmmi⟩ :=
    stationDataDecode_ok_mmi simulation bodyBytes stationLength H hH hlen hnib hblock
  refine ⟨m, hm, by rw [hmmi]; simp, ?_⟩
  intro i hi
  have hv : readUint bodyBytes (H + 4 * i) 4 < mmiConvertArray.length :=
    Nat.lt_succ_of_le (hnib i hi)
  rw [hmmi, List.getElem?_map, List.getElem?_range hi]
  show some (mmiConvertArray.getD (readUint bodyBytes (H + 4 * i) 4) 0) = _
  rw [List.getD_eq_getElem _ _ hv, ← List.getElem?_eq_getElem hv]
  rfl

theorem stationDataDecode_mmi_table_witness :
    ∃ m, stationDataDecode none [0x00, 0x00, 0x00, 0x00, 0x2B] 2 = .ok m ∧
      m.MMI.length = 2 ∧
      ∀ i, i < 2 →
        m.MMI[i]? =
          ([1, 1, 2, 3, 4, 5, 6, 7, 8, 9, 10, 10, 1, 1, 1] : List Int)[readUint
            [0x00, 0x00, 0x00, 0x00, 0x2B] (32 + 4 * i) 4]? :=
  stationDataDecode_mmi_table none [0x00, 0x00, 0x00, 0x00, 0x2B] 2 32 rfl (by decide)
    (by decide) (by decide)

/-! ## Necessity of the decoding conditions -/

theorem error_bind {α β : Type} (e : Panic) (f : α → Except Panic β) :
    (Except.error e >>= f) = .error e := rfl

theorem index_ok_bound {α : Type} {s : List α} {x : Int} {v : α} (h : index s x = .ok v) :
    0 ≤ x ∧ x.toNat < s.length := by
  unfold index at h
  split at h
  · rename_i hc
    exact hc
  · cases h

theorem mmiLoop_ok_imp (body : GoString) (n : Int) :
    ∀ fuel i acc r, mmiLoop body n fuel i acc = .ok r →
      ∀ j : Nat, i ≤ j → (j : Int) < n →
        4 * j + 4 ≤ body.length ∧ binaryStringToInt ((body.drop (4 * j)).take 4) < 15 := by
  intro fuel
  induction fuel with
  | zero =>
    intro i acc r h
    unfold mmiLoop at h
    cases h
  | succ fuel ih =>
    intro i acc r h j hij hjn
    unfold mmiLoop at h
    have hlt : (i : Int) < n := by omega
    rw [if_pos hlt] at h
    cases hs : slice body ((i : Int) * 4) ((i : Int) * 4 + 4) with
    | error e =>
      rw [hs, error_bind] at h
      cases h
    | ok nib =>
      rw [hs, ok_bind] at h
      obtain ⟨_, _, hhi, hnib⟩ := slice_length hs
      have e1 : ((i : Int) * 4).toNat = 4 * i := by omega
      have e2 : ((i : Int) * 4 + 4).toNat - ((i : Int) * 4).toNat = 4 := by omega
      rw [e2, e1] at hnib
      cases hx : index mmiConvertArray (binaryStringToInt nib) with
      | error e =>
        rw [hx, error_bind] at h
        cases h
      | ok v =>
        rw [hx, ok_bind] at h
        by_cases hji : j = i
        · subst hji
          have hb := index_ok_bound hx
          have hl : mmiConvertArray.length = 15 := rfl
          rw [hl, hnib] at hb
          exact ⟨by omega, by omega⟩
        · exact ih (i + 1) _ r h j (by omega) hjn

/-- The conditions under which `parseStationDataBody` returns are necessary: a successful
call has a decodable MMI region and, in phase Alert or Info, a body of at least 600 bits. -/
theorem parseStationDataBody_ok_requires (body : GoString) (n : Int)
    (msg m : EarthquakeMessage) (h : parseStationDataBody body n msg = .ok m) :
    MMIRegionOk body n ∧
      ((msg.Phase = PhaseAlert ∨ msg.Phase = PhaseInfo) → 600 ≤ body.length) := by
  unfold parseStationDataBody at h
  cases hl : mmiLoop body n (n.toNat + 1) 0 msg.MMI with
  | error e =>
    rw [hl, error_bind] at h
    cases h
  | ok mmi =>
    rw [hl, ok_bind] at h
    refine ⟨fun j hj => mmiLoop_ok_imp body n _ 0 _ _ hl j (Nat.zero_le j) hj, ?_⟩
    intro hphase
    rw [if_pos hphase] at h
    cases hs : sliceFrom body ((body.length : Int) - 600) with
    | error e =>
      rw [hs, error_bind] at h
      cases h
    | ok block =>
      unfold sliceFrom at hs
      have := (slice_length hs).1
      omega

/-! ## Explicit results of the station data decoding path -/

theorem phaseOfCode_value (code : GoString) (hb : IsBinary code) (h2 : code.length = 2) :
    (strValue code = 0 → phaseOfCode code = PhaseNormal) ∧
      (strValue code = 1 → phaseOfCode code = PhaseUpdateInfo) ∧
      (strValue code = 2 → phaseOfCode code = PhaseAlert) ∧
      (strValue code = 3 → phaseOfCode code = PhaseInfo) ∧
      ((phaseOfCode code = PhaseAlert ∨ phaseOfCode code = PhaseInfo) ↔
        (strValue code = 2 ∨ strValue code = 3)) ∧
      strValue code < 4 := by
  match code, hb, h2 with
  | [a, b], hb, _ =>
    have ha := hb a (by simp)
    have hb' := hb b (by simp)
    rcases ha with rfl | rfl <;> rcases hb' with rfl | rfl <;> decide

theorem header_code (bodyBytes : List Byte) (H : Nat) (h3 : 3 ≤ H)
    (hlen : H ≤ 8 * bodyBytes.length) :
    IsBinary ((((byteArrayToBinaryString bodyBytes).take H).drop 1).take 2) ∧
      ((((byteArrayToBinaryString bodyBytes).take H).drop 1).take 2).length = 2 ∧
      strValue ((((byteArrayToBinaryString bodyBytes).take H).drop 1).take 2) =
        readUint bodyBytes 1 2 := by
  obtain ⟨hs, hb, _⟩ := byteArrayToBinaryString_spec bodyBytes
  have e : (((byteArrayToBinaryString bodyBytes).take H).drop 1).take 2 =
      ((byteArrayToBinaryString bodyBytes).drop 1).take 2 :=
    take_drop_congr (m := H) (by rw [List.take_take, Nat.min_self]) 1 2 (by omega)
  refine ⟨((hb.take H).drop 1).take 2, ?_, ?_⟩
  · simp only [List.length_take, List.length_drop, hs]; omega
  · rw [e, strValue_field bodyBytes 1 2 (by omega)]

theorem header_id (bodyBytes : List Byte) (H : Nat) (h32 : 32 ≤ H)
    (hlen : H ≤ 8 * bodyBytes.length) :
    binaryStringToInt ((((byteArrayToBinaryString bodyBytes).take H).drop 6).take 26) =
      (readUint bodyBytes 6 26 : Int) := by
  have e : (((byteArrayToBinaryString bodyBytes).take H).drop 6).take 26 =
      ((byteArrayToBinaryString bodyBytes).drop 6).take 26 :=
    take_drop_congr (m := H) (by rw [List.take_take, Nat.min_self]) 6 26 (by omega)
  rw [e, binaryStringToInt_field bodyBytes 6 26 (by omega) (by norm_num)]

theorem earthquakeBlock_drop (bodyBytes : List Byte) (H : Nat)
    (h600 : H + 600 ≤ 8 * bodyBytes.length) :
    earthquakeBlock ((byteArrayToBinaryString bodyBytes).drop H) =
      (byteArrayToBinaryString bodyBytes).drop (8 * bodyBytes.length - 600) := by
  have hs := (byteArrayToBinaryString_spec bodyBytes).1
  unfold earthquakeBlock
  rw [List.drop_drop, List.length_drop, hs]
  have e : H + (8 * bodyBytes.length - H - 600) = 8 * bodyBytes.length - 600 := by omega
  rw [e]

theorem block_field (bodyBytes : List Byte) (H a l : Nat)
    (h600 : H + 600 ≤ 8 * bodyBytes.length) (hal : a + l ≤ 600) (h63 : l ≤ 63) :
    binaryStringToInt
        (((earthquakeBlock ((byteArrayToBinaryString bodyBytes).drop H)).drop a).take l) =
      (readUint bodyBytes (8 * bodyBytes.length - 600 + a) l : Int) := by
  rw [earthquakeBlock_drop bodyBytes H h600, List.drop_drop,
    binaryStringToInt_field bodyBytes _ l (by omega) h63]


theorem headerSizeOf_eq (simulation : Option SimulationData) (H : Nat)
    (hH : H = if simulation.isSome then 8 else 32) :
    headerSizeOf simulation = (H : Int) ∧ (if simulation.isNone then 32 else 3) ≤ H ∧ 3 ≤ H := by
  unfold headerSizeOf
  cases simulation <;> simp [hH]

theorem stationDataDecode_quiet (simulation : Option SimulationData) (bodyBytes : List Byte)
    (stationLength H : Nat) (hH : H = if simulation.isSome then 8 else 32)
    (hlen : H + 4 * stationLength ≤ 8 * bodyBytes.length)
    (hnib : ∀ i < stationLength, readUint bodyBytes (H + 4 * i) 4 ≤ 14)
    (hq : readUint bodyBytes 1 2 = 0 ∨ readUint bodyBytes 1 2 = 1) :
    stationDataDecode simulation bodyBytes stationLength =
      .ok { StationUpdateNeeded :=
              decide (((byteArrayToBinaryString bodyBytes).take H).getD 0 '0' = '1')
            Phase := if readUint bodyBytes 1 2 = 0 then PhaseNormal else PhaseUpdateInfo
            LastEarthquakeId :=
              if simulation.isNone then
                '2' :: '0' :: Itoa (binaryStringToInt
                  ((((byteArrayToBinaryString bodyBytes).take H).drop 6).take 26))
              else []
            MMI := (List.range stationLength).map (fun i =>
              mmiConvertArray.getD (readUint bodyBytes (H + 4 * i) 4) 0)
            EarthquakeInfo := zeroMessage.EarthquakeInfo } := by
  obtain ⟨hsize, hH3, h3⟩ := headerSizeOf_eq simulation H hH
  obtain ⟨cb, cl, cv⟩ := header_code bodyBytes H h3 (by omega)
  obtain ⟨p0, p1, _, _, piff, _⟩ := phaseOfCode_value _ cb cl
  rw [cv] at p0 p1 piff
  have hphase : ¬ (phaseOfCode ((((byteArrayToBinaryString bodyBytes).take H).drop 1).take 2) =
        PhaseAlert ∨
      phaseOfCode ((((byteArrayToBinaryString bodyBytes).take H).drop 1).take 2) =
        PhaseInfo) := by
    rw [piff]; omega
  have hmmi := mmiRegionOk_of_readUint bodyBytes H stationLength hlen hnib
  have hmap := mmi_map_readUint bodyBytes H stationLength hlen
  unfold stationDataDecode
  rw [hsize, decodeStationData_split simulation H bodyBytes _ hH3 (by omega),
    parseStationDataBody_quiet _ _ _ hphase hmmi, ok_bind, if_neg hphase, pure_eq_ok]
  simp only [Int.toNat_ofNat, zeroMessage, List.nil_append, hmap]
  rcases hq with h | h
  · rw [if_pos h, p0 h]
  · have h0 : ¬ readUint bodyBytes 1 2 = 0 := by omega
    rw [if_neg h0, p1 h]

set_option maxRecDepth 10000 in
theorem stationDataDecode_alert (simulation : Option SimulationData) (bodyBytes : List Byte)
    (stationLength H : Nat) (hH : H = if simulation.isSome then 8 else 32)
    (hlen : H + 4 * stationLength ≤ 8 * bodyBytes.length)
    (hnib : ∀ i < stationLength, readUint bodyBytes (H + 4 * i) 4 ≤ 14)
    (ha : readUint bodyBytes 1 2 = 2 ∨ readUint bodyBytes 1 2 = 3)
    (h600 : H + 600 ≤ 8 * bodyBytes.length) :
    stationDataDecode simulation bodyBytes stationLength =
      .ok { StationUpdateNeeded :=
              decide (((byteArrayToBinaryString bodyBytes).take H).getD 0 '0' = '1')
            Phase := if readUint bodyBytes 1 2 = 2 then PhaseAlert else PhaseInfo
            LastEarthquakeId :=
              if simulation.isNone then
                '2' :: '0' :: Itoa (binaryStringToInt
                  ((((byteArrayToBinaryString bodyBytes).take H).drop 6).take 26))
              else []
            MMI := (List.range stationLength).map (fun i =>
              mmiConvertArray.getD (readUint bodyBytes (H + 4 * i) 4) 0)
            EarthquakeInfo :=
              { Longitude :=
                  12000 + (readUint bodyBytes (8 * bodyBytes.length - 600 + 10) 10 : Int)
                Latitude :=
                  3000 + (readUint bodyBytes (8 * bodyBytes.length - 600 + 0) 10 : Int)
                EarthquakeId :=
                  '2' :: '0' ::
                    Itoa (readUint bodyBytes (8 * bodyBytes.length - 600 + 69) 26 : Int)
                Magnitude :=
                  toInt8 (readUint bodyBytes (8 * bodyBytes.length - 600 + 20) 7 : Int)
                Depth := toInt8 (readUint bodyBytes (8 * bodyBytes.length - 600 + 27) 9 : Int)
                Time :=
                  Itoa ((readUint bodyBytes (8 * bodyBytes.length - 600 + 36) 33 : Int) +
                    32400) ++ ['0', '0', '0']
                MaxIntensity :=
                  toInt8 (readUint bodyBytes (8 * bodyBytes.length - 600 + 95) 4 : Int)
                MaxIntensityArea :=
                  if ((earthquakeBlock ((byteArrayToBinaryString bodyBytes).drop H)).drop
                      99).take 17 = List.replicate 17 '1' then []
                  else
                    ((List.range' 99 17).filter (fun i => decide
                      ((earthquakeBlock ((byteArrayToBinaryString bodyBytes).drop H)).getD i
                        '0' = '1'))).map (fun i => areaNames.getD (i - 99) [])
                Epicenter :=
                  Trim (bytesToString (bodyBytes.drop (bodyBytes.length - 60)))
                    [Char.ofNat 0, Char.ofNat 32] } } := by
  obtain ⟨hsize, hH3, h3⟩ := headerSizeOf_eq simulation H hH
  obtain ⟨cb, cl, cv⟩ := header_code bodyBytes H h3 (by omega)
  obtain ⟨_, _, p2, p3, piff, _⟩ := phaseOfCode_value _ cb cl
  rw [cv] at p2 p3 piff
  have hphase := piff.2 ha
  have hs := (byteArrayToBinaryString_spec bodyBytes).1
  have hmmi := mmiRegionOk_of_readUint bodyBytes H stationLength hlen hnib
  have hmap := mmi_map_readUint bodyBytes H stationLength hlen
  unfold stationDataDecode
  rw [hsize, decodeStationData_split simulation H bodyBytes _ hH3 (by omega),
    parseStationDataBody_alert _ _ _ hphase (by rw [List.length_drop, hs]; omega) hmmi,
    ok_bind, if_pos hphase]
  have ht : (bodyBytes.drop (bodyBytes.length - 60)).take 60 =
      bodyBytes.drop (bodyBytes.length - 60) :=
    List.take_of_length_le (by rw [List.length_drop]; omega)
  unfold sliceFrom
  rw [slice_of_eq bodyBytes _ _ (bodyBytes.length - 60) 60 (by omega) (by omega) (by omega),
    ok_bind, pure_eq_ok, ht,
    block_field bodyBytes H 10 10 h600 (by norm_num) (by norm_num),
    block_field bodyBytes H 0 10 h600 (by norm_num) (by norm_num),
    block_field bodyBytes H 69 26 h600 (by norm_num) (by norm_num),
    block_field bodyBytes H 20 7 h600 (by norm_num) (by norm_num),
    block_field bodyBytes H 27 9 h600 (by norm_num) (by norm_num),
    block_field bodyBytes H 36 33 h600 (by norm_num) (by norm_num),
    block_field bodyBytes H 95 4 h600 (by norm_num) (by norm_num)]
  simp only [Int.toNat_ofNat, zeroMessage, List.nil_append, hmap]
  rcases ha with h | h
  · rw [if_pos h, p2 h]
  · have h2 : ¬ readUint bodyBytes 1 2 = 2 := by omega
    rw [if_neg h2, p3 h]

/-! ## Presence of the earthquake info, totality and the empty input -/

theorem toInt8_eq (x : Int) (h0 : 0 ≤ x) (h1 : x < 128) : toInt8 x = x := by
  unfold toInt8
  omega

theorem readUint_lt (bytes : List Byte) (o l : Nat) : readUint bytes o l < 2 ^ l :=
  Nat.mod_lt _ (Nat.two_pow_pos l)

/-- C11: on the decoding path, for every decodable input, the header codes `00` and `01`
give the phases Normal and UpdateInfo and leave every `EarthquakeInfo` field at its zero
value, whatever the body bits are; the header code `10` gives the phase Alert and
`EarthquakeInfo` is populated from the last 600 bits (and the last 60 bytes). -/
theorem stationDataDecode_earthquakeInfo_presence (simulation : Option SimulationData)
    (bodyBytes : List Byte) (stationLength H : Nat)
    (hH : H = if simulation.isSome then 8 else 32)
    (hlen : H + 4 * stationLength ≤ 8 * bodyBytes.length)
    (hnib : ∀ i < stationLength, readUint bodyBytes (H + 4 * i) 4 ≤ 14)
    (hblock : readUint bodyBytes 1 2 = 2 ∨ readUint bodyBytes 1 2 = 3 →
      H + 600 ≤ 8 * bodyBytes.length) :
    ∃ m, stationDataDecode simulation bodyBytes stationLength = .ok m ∧
      (readUint bodyBytes 1 2 = 0 → m.Phase = PhaseNormal ∧
        m.EarthquakeInfo =
          { Longitude := 0, Latitude := 0, EarthquakeId := [], Magnitude := 0, Depth := 0,
            Time := [], MaxIntensity := 0, MaxIntensityArea := [], Epicenter := [] }) ∧
      (readUint bodyBytes 1 2 = 1 → m.Phase = PhaseUpdateInfo ∧
        m.EarthquakeInfo =
          { Longitude := 0, Latitude := 0, EarthquakeId := [], Magnitude := 0, Depth := 0,
            Time := [], MaxIntensity := 0, MaxIntensityArea := [], Epicenter := [] }) ∧
      (readUint bodyBytes 1 2 = 2 → m.Phase = PhaseAlert ∧
        m.EarthquakeInfo.Latitude =
          3000 + (readUint bodyBytes (8 * bodyBytes.length - 600) 10 : Int) ∧
        m.EarthquakeInfo.Longitude =
          12000 + (readUint bodyBytes (8 * bodyBytes.length - 590) 10 : Int) ∧
        m.EarthquakeInfo.Magnitude = (readUint bodyBytes (8 * bodyBytes.length - 580) 7 : Int) ∧
        m.EarthquakeInfo.Time =
          Itoa ((readUint bodyBytes (8 * bodyBytes.length - 564) 33 : Int) + 32400) ++
            ['0', '0', '0'] ∧
        m.EarthquakeInfo.EarthquakeId =
          '2' :: '0' :: Itoa (readUint bodyBytes (8 * bodyBytes.length - 531) 26 : Int) ∧
        m.EarthquakeInfo.MaxIntensity =
          (readUint bodyBytes (8 * bodyBytes.length - 505) 4 : Int) ∧
        m.EarthquakeInfo.Epicenter =
          Trim (bytesToString (bodyBytes.drop (bodyBytes.length - 60)))
            [Char.ofNat 0, Char.ofNat 32]) := by
  have hv := readUint_lt bodyBytes 1 2
  by_cases hq : readUint bodyBytes 1 2 = 0 ∨ readUint bodyBytes 1 2 = 1
  · refine ⟨_, stationDataDecode_quiet simulation bodyBytes stationLength H hH hlen hnib hq,
      ?_, ?_, ?_⟩
    · intro h
      exact ⟨by simp only [h, if_true], rfl⟩
    · intro h
      have h0 : ¬ readUint bodyBytes 1 2 = 0 := by omega
      exact ⟨by simp only [h0, if_false], rfl⟩
    · intro h
      omega
  · have ha : readUint bodyBytes 1 2 = 2 ∨ readUint bodyBytes 1 2 = 3 := by
      norm_num at hv
      omega
    have h600 := hblock ha
    refine ⟨_, stationDataDecode_alert simulation bodyBytes stationLength H hH hlen hnib ha
      h600, ?_, ?_, ?_⟩
    · intro h
      omega
    · intro h
      omega
    · intro h
      have e10 : 8 * bodyBytes.length - 600 + 10 = 8 * bodyBytes.length - 590 := by omega
      have e20 : 8 * bodyBytes.length - 600 + 20 = 8 * bodyBytes.length - 580 := by omega
      have e36 : 8 * bodyBytes.length - 600 + 36 = 8 * bodyBytes.length - 564 := by omega
      have e69 : 8 * bodyBytes.length - 600 + 69 = 8 * bodyBytes.length - 531 := by omega
      have e95 : 8 * bodyBytes.length - 600 + 95 = 8 * bodyBytes.length - 505 := by omega
      have hm := readUint_lt bodyBytes (8 * bodyBytes.length - 580) 7
      have hi := readUint_lt bodyBytes (8 * bodyBytes.length - 505) 4
      norm_num at hm hi
      simp only [h, if_true, e10, e20, e36, e69, e95, Nat.add_zero]
      refine ⟨trivial, trivial, trivial, ?_, trivial, trivial, ?_, trivial⟩
      · exact toInt8_eq _ (by omega) (by omega)
      · exact toInt8_eq _ (by omega) (by omega)


set_option exponentiation.threshold 1000 in
set_option maxRecDepth 100000 in
theorem stationDataDecode_earthquakeInfo_presence_witness :
    ∃ m, stationDataDecode none ([0x40, 0, 0, 0] ++ List.replicate 75 0xFF) 0 = .ok m ∧
      m.Phase = PhaseAlert ∧ m.EarthquakeInfo.Latitude = 4023 := by
  obtain ⟨m, hm, _, _, h10⟩ := stationDataDecode_earthquakeInfo_presence none
    ([0x40, 0, 0, 0] ++ List.replicate 75 0xFF) 0 32 rfl (by decide) (by decide)
    (fun _ => by decide)
  obtain ⟨hp, hlat, _⟩ := h10 (by rfl)
  refine ⟨m, hm, hp, ?_⟩
  rw [hlat]
  rfl

/-- C19: totality under well-formedness.  For every byte sequence, clock mode with header
width `H` (32 real-time, 8 simulation) and station count such that the input has at least
`H + 4 * stationLength` bits, every MMI nibble is in `0..14` and, when the status code
announces Alert or Info, the body has at least 600 bits, the decoding path returns a message:
no slice or index is out of range, and in the Alert or Info case the input has the 60 bytes
of the epicenter slice. -/
theorem stationDataDecode_total (simulation : Option SimulationData) (bodyBytes : List Byte)
    (stationLength H : Nat) (hH : H = if simulation.isSome then 8 else 32)
    (hlen : H + 4 * stationLength ≤ 8 * bodyBytes.length)
    (hnib : ∀ i < stationLength, readUint bodyBytes (H + 4 * i) 4 ≤ 14)
    (hblock : readUint bodyBytes 1 2 = 2 ∨ readUint bodyBytes 1 2 = 3 →
      H + 600 ≤ 8 * bodyBytes.length) :
    (∃ m, stationDataDecode simulation bodyBytes stationLength = .ok m ∧
      ((m.Phase = PhaseAlert ∨ m.Phase = PhaseInfo) ↔
        (readUint bodyBytes 1 2 = 2 ∨ readUint bodyBytes 1 2 = 3))) ∧
      (readUint bodyBytes 1 2 = 2 ∨ readUint bodyBytes 1 2 = 3 →
        ∃ tail, sliceFrom bodyBytes ((bodyBytes.length : Int) - 60) = .ok tail ∧
          tail.length = 60) := by
  have hv := readUint_lt bodyBytes 1 2
  constructor
  · by_cases hq : readUint bodyBytes 1 2 = 0 ∨ readUint bodyBytes 1 2 = 1
    · refine ⟨_, stationDataDecode_quiet simulation bodyBytes stationLength H hH hlen hnib hq,
        ?_⟩
      rcases hq with h | h <;> simp [h, PhaseNormal, PhaseUpdateInfo, PhaseAlert, PhaseInfo]
    · have ha : readUint bodyBytes 1 2 = 2 ∨ readUint bodyBytes 1 2 = 3 := by
        norm_num at hv
        omega
      refine ⟨_, stationDataDecode_alert simulation bodyBytes stationLength H hH hlen hnib ha
        (hblock ha), ?_⟩
      rcases ha with h | h <;> simp [h, PhaseAlert, PhaseInfo]
  · intro ha
    have h600 := hblock ha
    refine ⟨(bodyBytes.drop (bodyBytes.length - 60)).take 60, ?_, ?_⟩
    · unfold sliceFrom
      exact slice_of_eq bodyBytes _ _ (bodyBytes.length - 60) 60 (by omega) (by omega)
        (by omega)
    · simp only [List.length_take, List.length_drop]
      omega

theorem stationDataDecode_total_witness :
    ∃ m, stationDataDecode (some ⟨0, [], 0, 0⟩) [0x00, 0x2B] 2 = .ok m :=
  let ⟨m, hm, _⟩ := (stationDataDecode_total (some ⟨0, [], 0, 0⟩) [0x00, 0x2B] 2 8 rfl
    (by decide) (by decide) (by decide)).1
  ⟨m, hm⟩

theorem stationDataDecode_nil (simulation : Option SimulationData) (stationLength : Int) :
    stationDataDecode simulation [] stationLength = .error .sliceOutOfRange := by
  cases simulation <;> rfl

/-- C16 (code defect): for a 200 response with an empty body `GetStationData` runs the
decoding path on the empty byte sequence and the header slice `binaryString[:headerSize]` is
out of range, in real-time mode and in simulation mode, so the call panics instead of
returning a default message; on the same response the sibling station list decoding returns
the empty list. -/
theorem getStationData_empty_body_panics :
    getStationDataResponse none 200 [] 120 = .error .sliceOutOfRange ∧
      getStationDataResponse (some ⟨0, [], 0, 0⟩) 200 [] 120 = .error .sliceOutOfRange ∧
      stationDataDecode none [] 120 = .error .sliceOutOfRange ∧
      stationDataDecode (some ⟨0, [], 0, 0⟩) [] 120 = .error .sliceOutOfRange ∧
      decodeStationList [] = .ok [] :=
  ⟨rfl, rfl, rfl, rfl, rfl⟩

/-! ## Fields of the header and of the earthquake info block -/

theorem Itoa_natCast (n : Nat) : Itoa (n : Int) = Nat.toDigits 10 n := rfl

set_option maxRecDepth 10000 in
/-- C12: for every body decoded with phase Alert or Info (at least 600 bits, decodable MMI
region) the earthquake info block is the last 600 bits of the body: with `B` the body length,
`Latitude = 3000 +` the value of body bits `[B-600, B-590)` and `Longitude = 12000 +` the
value of body bits `[B-590, B-580)`; and the decoded `EarthquakeInfo` is the same for any
other body, station count and incoming message with the same last 600 bits (and the same
incoming `EarthquakeInfo`), so it does not depend on the station count or on the MMI nibbles
outside the block. -/
theorem earthquakeInfo_last_600_bits (bodyString : GoString) (stationLength : Int)
    (message : EarthquakeMessage)
    (hphase : message.Phase = PhaseAlert ∨ message.Phase = PhaseInfo)
    (hlen : 600 ≤ bodyString.length) (hmmi : MMIRegionOk bodyString stationLength) :
    ∃ m, parseStationDataBody bodyString stationLength message = .ok m ∧
      m.EarthquakeInfo.Latitude =
        3000 + (strValue ((bodyString.drop (bodyString.length - 600)).take 10) : Int) ∧
      m.EarthquakeInfo.Longitude =
        12000 + (strValue ((bodyString.drop (bodyString.length - 590)).take 10) : Int) ∧
      ∀ (other : GoString) (otherLength : Int) (otherMessage : EarthquakeMessage),
        (otherMessage.Phase = PhaseAlert ∨ otherMessage.Phase = PhaseInfo) →
        600 ≤ other.length → MMIRegionOk other otherLength →
        otherMessage.EarthquakeInfo = message.EarthquakeInfo →
        other.drop (other.length - 600) = bodyString.drop (bodyString.length - 600) →
        ∃ m2, parseStationDataBody other otherLength otherMessage = .ok m2 ∧
          m2.EarthquakeInfo = m.EarthquakeInfo := by
  refine ⟨_, parseStationDataBody_alert bodyString stationLength message hphase hlen hmmi,
    ?_, ?_, ?_⟩
  · show 3000 + binaryStringToInt (((earthquakeBlock bodyString).drop 0).take 10) = _
    rw [binaryStringToInt_short _ (by simp only [List.length_take]; omega)]
    rfl
  · show 12000 + binaryStringToInt (((earthquakeBlock bodyString).drop 10).take 10) = _
    rw [binaryStringToInt_short _ (by simp only [List.length_take]; omega)]
    unfold earthquakeBlock
    rw [List.drop_drop]
    have e : bodyString.length - 600 + 10 = bodyString.length - 590 := by omega
    rw [e]
  · intro other otherLength otherMessage hp2 hl2 hm2 hinfo hblock
    refine ⟨_, parseStationDataBody_alert other otherLength otherMessage hp2 hl2 hm2, ?_⟩
    have hb : earthquakeBlock other = earthquakeBlock bodyString := hblock
    simp only [hb, hinfo]

set_option maxRecDepth 100000 in
theorem earthquakeInfo_last_600_bits_witness :
    ∃ m, parseStationDataBody (List.replicate 600 '1') 0
        { zeroMessage with Phase := PhaseAlert } = .ok m ∧
      m.EarthquakeInfo.Latitude = 4023 ∧ m.EarthquakeInfo.Longitude = 13023 := by
  obtain ⟨m, hm, hlat, hlon, _⟩ := earthquakeInfo_last_600_bits (List.replicate 600 '1') 0
    { zeroMessage with Phase := PhaseAlert } (Or.inl rfl) (by decide)
    (fun j hj => absurd hj (by omega))
  exact ⟨m, hm, hlat.trans (by rfl), hlon.trans (by rfl)⟩

/-- C13: in real-time mode (no simulation armed), for every 32-bit header
`parseStationDataHeader` sets `LastEarthquakeId` to `20` followed by the decimal digits of the
unsigned integer at header bits `[6,32)`, which is never empty; in simulation mode (8-bit
header) it leaves `LastEarthquakeId` unchanged, which is the empty string on a fresh
message. -/
theorem parseStationDataHeader_lastEarthquakeId (headerString : GoString)
    (message : EarthquakeMessage) (h32 : headerString.length = 32) :
    (∃ m, parseStationDataHeader none headerString message = .ok m ∧
      m.LastEarthquakeId =
        '2' :: '0' :: Nat.toDigits 10 (strValue ((headerString.drop 6).take 26)) ∧
      m.LastEarthquakeId ≠ []) ∧
      (∀ (sim : SimulationData) (simHeader : GoString), simHeader.length = 8 →
        ∃ m, parseStationDataHeader (some sim) simHeader message = .ok m ∧
          m.LastEarthquakeId = message.LastEarthquakeId) ∧
      (∀ (sim : SimulationData) (simHeader : GoString), simHeader.length = 8 →
        ∃ m, parseStationDataHeader (some sim) simHeader zeroMessage = .ok m ∧
          m.LastEarthquakeId = []) := by
  refine ⟨?_, ?_, ?_⟩
  · refine ⟨_, parseStationDataHeader_eq none headerString message (by simp [h32]), ?_, ?_⟩
    · show '2' :: '0' :: Itoa (binaryStringToInt ((headerString.drop 6).take 26)) = _
      rw [binaryStringToInt_short _ (by simp only [List.length_take]; omega), Itoa_natCast]
    · exact List.cons_ne_nil _ _
  · intro sim simHeader h8
    exact ⟨_, parseStationDataHeader_eq (some sim) simHeader message (by simp [h8]), rfl⟩
  · intro sim simHeader h8
    exact ⟨_, parseStationDataHeader_eq (some sim) simHeader zeroMessage (by simp [h8]), rfl⟩

set_option maxRecDepth 100000 in
theorem parseStationDataHeader_lastEarthquakeId_witness :
    ∃ m, parseStationDataHeader none "00000000000000000000011111100101".toList zeroMessage =
        .ok m ∧ m.LastEarthquakeId = "202021".toList := by
  obtain ⟨⟨m, hm, hid, _⟩, _⟩ := parseStationDataHeader_lastEarthquakeId
    "00000000000000000000011111100101".toList zeroMessage (by decide)
  exact ⟨m, hm, hid.trans (by rfl)⟩

/-- C14: for every body decoded with phase Alert or Info (at least 600 bits, decodable MMI
region), `Time` is the decimal digits of `T + 32400` followed by the literal `000`, `T` being
the unsigned integer at block bits `[36,69)`. -/
theorem earthquakeInfo_time (bodyString : GoString) (stationLength : Int)
    (message : EarthquakeMessage)
    (hphase : message.Phase = PhaseAlert ∨ message.Phase = PhaseInfo)
    (hlen : 600 ≤ bodyString.length) (hmmi : MMIRegionOk bodyString stationLength) :
    ∃ m, parseStationDataBody bodyString stationLength message = .ok m ∧
      m.EarthquakeInfo.Time =
        Nat.toDigits 10 (strValue (((earthquakeBlock bodyString).drop 36).take 33) + 32400) ++
          ['0', '0', '0'] := by
  refine ⟨_, parseStationDataBody_alert bodyString stationLength message hphase hlen hmmi, ?_⟩
  show Itoa (binaryStringToInt (((earthquakeBlock bodyString).drop 36).take 33) + 32400) ++
    ['0', '0', '0'] = _
  rw [binaryStringToInt_short _ (by simp only [List.length_take]; omega)]
  have e : ((strValue (((earthquakeBlock bodyString).drop 36).take 33) : Nat) : Int) + 32400 =
      ((strValue (((earthquakeBlock bodyString).drop 36).take 33) + 32400 : Nat) : Int) := by
    push_cast
    rfl
  rw [e, Itoa_natCast]

set_option maxRecDepth 100000 in
theorem earthquakeInfo_time_witness :
    ∃ m, parseStationDataBody (List.replicate 600 '0') 0
        { zeroMessage with Phase := PhaseInfo } = .ok m ∧
      m.EarthquakeInfo.Time = "32400000".toList := by
  obtain ⟨m, hm, ht⟩ := earthquakeInfo_time (List.replicate 600 '0') 0
    { zeroMessage with Phase := PhaseInfo } (Or.inr rfl) (by decide)
    (fun j hj => absurd hj (by omega))
  exact ⟨m, hm, ht.trans (by rfl)⟩

set_option maxRecDepth 10000 in
/-- C15: for every bit-string body decoded with phase Alert or Info (at least 600 bits,
decodable MMI region), `Magnitude` is the raw unsigned value of the 7-bit field at block bits
`[20,27)`, a value in `0..127` that the conversion to `int8` leaves unchanged; in particular
the field bits `0000110` give magnitude 6. -/
theorem earthquakeInfo_magnitude (bodyString : GoString) (stationLength : Int)
    (message : EarthquakeMessage)
    (hphase : message.Phase = PhaseAlert ∨ message.Phase = PhaseInfo)
    (hlen : 600 ≤ bodyString.length) (hmmi : MMIRegionOk bodyString stationLength)
    (hbin : IsBinary bodyString) :
    ∃ m, parseStationDataBody bodyString stationLength message = .ok m ∧
      m.EarthquakeInfo.Magnitude =
        (strValue (((earthquakeBlock bodyString).drop 20).take 7) : Int) ∧
      strValue (((earthquakeBlock bodyString).drop 20).take 7) ≤ 127 ∧
      (((earthquakeBlock bodyString).drop 20).take 7 = ['0', '0', '0', '0', '1', '1', '0'] →
        m.EarthquakeInfo.Magnitude = 6) := by
  have hb : IsBinary (((earthquakeBlock bodyString).drop 20).take 7) :=
    ((hbin.drop _).drop 20).take 7
  have hlt := strValue_lt_of_binary _ hb
  have hl7 : (((earthquakeBlock bodyString).drop 20).take 7).length ≤ 7 := by
    simp only [List.length_take]; omega
  have h128 : strValue (((earthquakeBlock bodyString).drop 20).take 7) < 128 :=
    lt_of_lt_of_le hlt (Nat.pow_le_pow_right (by norm_num) hl7)
  have hmag : toInt8 (binaryStringToInt (((earthquakeBlock bodyString).drop 20).take 7)) =
      (strValue (((earthquakeBlock bodyString).drop 20).take 7) : Int) := by
    rw [binaryStringToInt_short _ (by omega)]
    exact toInt8_eq _ (by omega) (by omega)
  refine ⟨_, parseStationDataBody_alert bodyString stationLength message hphase hlen hmmi,
    hmag, by omega, ?_⟩
  intro h
  show toInt8 (binaryStringToInt (((earthquakeBlock bodyString).drop 20).take 7)) = 6
  rw [h]
  rfl

set_option maxRecDepth 100000 in
theorem earthquakeInfo_magnitude_witness :
    ∃ m, parseStationDataBody
        (List.replicate 20 '0' ++ "0000110".toList ++ List.replicate 573 '0') 0
        { zeroMessage with Phase := PhaseAlert } = .ok m ∧
      m.EarthquakeInfo.Magnitude = 6 := by
  obtain ⟨m, hm, _, _, h6⟩ := earthquakeInfo_magnitude
    (List.replicate 20 '0' ++ "0000110".toList ++ List.replicate 573 '0') 0
    { zeroMessage with Phase := PhaseAlert } (Or.inl rfl) (by decide)
    (fun j hj => absurd hj (by omega)) (by decide)
  exact ⟨m, hm, h6 (by rfl)⟩

/-! ## Coordinate range -/

set_option maxRecDepth 100000 in
/-- C20, as stated, fails in its justification: the 64-character string of ones is a string
over `0` and `1` on which `binaryStringToInt` returns `-1` in the 64-bit type `int`, outside
`[0, 2^64 - 1]`. -/
theorem binaryStringToInt_range_64_counterexample :
    IsBinary (List.replicate 64 '1') ∧
      binaryStringToInt (List.replicate 64 '1') = -1 ∧
      ¬ (0 ≤ binaryStringToInt (List.replicate 64 '1') ∧
        binaryStringToInt (List.replicate 64 '1') ≤ 2 ^ (List.replicate 64 '1').length - 1) := by
  have h : binaryStringToInt (List.replicate 64 '1') = -1 := by rfl
  refine ⟨by decide, h, ?_⟩
  rw [h]
  omega

theorem binaryStringToInt_range (s : GoString) (hb : IsBinary s) (h63 : s.length ≤ 63) :
    0 ≤ binaryStringToInt s ∧ binaryStringToInt s ≤ 2 ^ s.length - 1 := by
  have hlt := strValue_lt_of_binary s hb
  have h2 : 2 ^ s.length ≤ 2 ^ 63 := Nat.pow_le_pow_right (by norm_num) h63
  rw [binaryStringToInt_eq s (by omega)]
  have hc : ((strValue s : Nat) : Int) < 2 ^ s.length := by exact_mod_cast hlt
  constructor
  · positivity
  · omega

/-- C20 (amended): coordinate range invariant.  For every byte sequence the station list
decoding loop succeeds and every station it produces has `Latitude` in `[3000, 4023]` and
`Longitude` in `[12000, 13023]`, because `binaryStringToInt` of any string of `l ≤ 63`
characters over `0` and `1` is in `[0, 2^l - 1]`. -/
theorem station_coordinate_range (bodyBytes : List Byte) :
    (∃ stations, decodeStationList bodyBytes = .ok stations ∧
      ∀ st ∈ stations, 3000 ≤ st.Latitude ∧ st.Latitude ≤ 4023 ∧
        12000 ≤ st.Longitude ∧ st.Longitude ≤ 13023) ∧
      (∀ s : GoString, IsBinary s → s.length ≤ 63 →
        0 ≤ binaryStringToInt s ∧ binaryStringToInt s ≤ 2 ^ s.length - 1) := by
  refine ⟨⟨_, decodeStationList_readUint bodyBytes, ?_⟩, binaryStringToInt_range⟩
  intro st hst
  obtain ⟨k, _, rfl⟩ := List.mem_map.1 hst
  have h1 := readUint_lt bodyBytes (20 * k) 10
  have h2 := readUint_lt bodyBytes (20 * k + 10) 10
  norm_num at h1 h2
  simp only
  omega

set_option maxRecDepth 100000 in
theorem station_coordinate_range_witness :
    0 ≤ binaryStringToInt "1111111111".toList ∧
      binaryStringToInt "1111111111".toList ≤ 2 ^ "1111111111".toList.length - 1 :=
  (station_coordinate_range []).2 "1111111111".toList (by decide) (by decide)

/-! ## Clock source -/

theorem wrapInt_eq_of_range (x : Int) (h0 : -2 ^ 63 ≤ x) (h1 : x < 2 ^ 63) : wrapInt x = x := by
  unfold wrapInt intBits
  norm_num at h0 h1 ⊢
  omega

theorem durationSeconds_le (d : Int) (h : d < 2 ^ 63) : durationSeconds d ≤ 9223372036 := by
  unfold durationSeconds
  cases d with
  | ofNat n =>
    show ((n / 1000000000 : Nat) : Int) ≤ 9223372036
    have hn : (n : Int) < 2 ^ 63 := h
    norm_num at hn
    omega
  | negSucc n =>
    show -((((n + 1) / 1000000000 : Nat)) : Int) ≤ 9223372036
    omega

set_option maxRecDepth 100000 in
/-- C17, as stated, fails: with start time 1970-01-01 00:00:00, arming at 10.9 s and a call
at 11.1 s (unexpired, duration 1000 s) the claimed instant `startTime + (now - armedAt - 1s)`
is 0.8 s before the start time and formats as `19691231235959`, whereas the code measures the
elapsed time in whole Unix seconds and returns `19700101000000`. -/
theorem kmaTimeString_subsecond_counterexample :
    (11100000000 : Int) - 10900000000 ≤ 1000000000000 ∧
      (kmaTimeString (StartSimulation ⟨0, [], 1000000000000, 0⟩ 10900000000) 11100000000
          11100000000).1 = "19700101000000".toList ∧
      formatUTC (0 + (11100000000 - 10900000000 - 1000000000)) = "19691231235959".toList ∧
      (kmaTimeString (StartSimulation ⟨0, [], 1000000000000, 0⟩ 10900000000) 11100000000
          11100000000).1 ≠ formatUTC (0 + (11100000000 - 10900000000 - 1000000000)) := by
  refine ⟨by decide, by rfl, by rfl, by decide⟩

/-- C17 (amended): simulation clock value.  With a simulation armed at `armedAt` with start
time `startTime`, for every wall time `now` not before `armedAt` at which the simulation is
unexpired (the elapsed whole Unix seconds do not exceed the whole seconds of the duration),
`kmaTimeString` returns `startTime + (now.Unix() - armedAt.Unix() - 1)` seconds formatted as
`YYYYMMDDHHMMSS` in UTC and leaves the simulation armed; when `now` and `armedAt` are whole
seconds this instant is `startTime + (now - armedAt - 1s)`. -/
theorem kmaTimeString_simulation_value (data : SimulationData) (armedAt now nowReal : Int)
    (harmed : armedAt ≤ now) (hdur : data.Duration < 2 ^ 63)
    (hunexpired : unixSeconds now - unixSeconds armedAt ≤ durationSeconds data.Duration) :
    kmaTimeString (StartSimulation data armedAt) now nowReal =
        (formatUTC (data.StartTime +
          (unixSeconds now - unixSeconds armedAt - 1) * 1000000000),
          StartSimulation data armedAt) ∧
      (now % 1000000000 = 0 → armedAt % 1000000000 = 0 →
        (unixSeconds now - unixSeconds armedAt - 1) * 1000000000 =
          now - armedAt - 1000000000) := by
  have hd := durationSeconds_le data.Duration hdur
  constructor
  · have hnot : ¬ unixSeconds now - unixSeconds armedAt > durationSeconds data.Duration := by
      omega
    have h0 : 0 ≤ unixSeconds now - unixSeconds armedAt := by
      unfold unixSeconds
      omega
    have hw : wrapInt ((unixSeconds now - unixSeconds armedAt - 1) * 1000000000) =
        (unixSeconds now - unixSeconds armedAt - 1) * 1000000000 := by
      apply wrapInt_eq_of_range
      · norm_num
        omega
      · norm_num
        omega
    simp only [kmaTimeString, StartSimulation, if_neg hnot, hw]
  · intro h1 h2
    unfold unixSeconds
    omega

set_option maxRecDepth 100000 in
theorem kmaTimeString_simulation_value_witness :
    kmaTimeString (StartSimulation ⟨1639469945000000000, [], 420000000000, 0⟩ 5000000000)
        8000000000 8000000000 =
      ("20211214081907".toList,
        StartSimulation ⟨1639469945000000000, [], 420000000000, 0⟩ 5000000000) :=
  (kmaTimeString_simulation_value ⟨1639469945000000000, [], 420000000000, 0⟩ 5000000000
    8000000000 8000000000 (by decide) (by decide) (by decide)).1.trans (by rfl)

set_option maxRecDepth 100000 in
/-- C18, as stated, fails: with duration 1 s, arming at 0.1 s and a call at 1.9 s the elapsed
time 1.8 s exceeds the duration, yet the code compares whole Unix seconds (1 against 1) and
keeps the simulation armed. -/
theorem kmaTimeString_expiry_subsecond_counterexample :
    (1900000000 : Int) - 100000000 > 1000000000 ∧
      (kmaTimeString (StartSimulation ⟨0, [], 1000000000, 0⟩ 100000000) 1900000000
          1900000000).2 = StartSimulation ⟨0, [], 1000000000, 0⟩ 100000000 ∧
      (kmaTimeString (StartSimulation ⟨0, [], 1000000000, 0⟩ 100000000) 1900000000
          1900000000).2 ≠ none := by
  refine ⟨by decide, by rfl, by decide⟩

set_option linter.unusedVariables false in
/-- C18 (amended): simulation clock expiry.  For every armed simulation whose duration is
shorter than 2^24 seconds in absolute value (the range in which `int(duration.Seconds())` is
the quotient `durationSeconds`) and every wall time `now`, a call to `kmaTimeString` tears the
simulation down (the state becomes `nil`) and returns the real-time value, one second before
the clock reading of the real-time path, if and only if the elapsed whole Unix seconds
`now.Unix() - armedAt.Unix()` exceed the whole seconds `int(duration.Seconds())` of the
duration; otherwise the simulation stays armed.  Once torn down, every later call returns the
real-time value and the state stays `nil`. -/
theorem kmaTimeString_expiry (data : SimulationData) (armedAt now nowReal : Int)
    (hshort : -16777216000000000 < data.Duration ∧ data.Duration < 16777216000000000) :
    (unixSeconds now - unixSeconds armedAt > durationSeconds data.Duration →
        kmaTimeString (StartSimulation data armedAt) now nowReal =
          (formatUTC (nowReal - 1000000000), none)) ∧
      (¬ unixSeconds now - unixSeconds armedAt > durationSeconds data.Duration →
        (kmaTimeString (StartSimulation data armedAt) now nowReal).2 =
          StartSimulation data armedAt) ∧
      ((kmaTimeString (StartSimulation data armedAt) now nowReal).2 = none ↔
        unixSeconds now - unixSeconds armedAt > durationSeconds data.Duration) ∧
      (∀ later laterReal : Int,
        kmaTimeString none later laterReal = (formatUTC (laterReal - 1000000000), none)) := by
  refine ⟨?_, ?_, ?_, ?_⟩
  · intro h
    simp only [kmaTimeString, StartSimulation, if_pos h]
  · intro h
    simp only [kmaTimeString, StartSimulation, if_neg h]
  · by_cases h : unixSeconds now - unixSeconds armedAt > durationSeconds data.Duration
    · simp only [kmaTimeString, StartSimulation, if_pos h]
      exact ⟨fun _ => h, fun _ => trivial⟩
    · simp only [kmaTimeString, StartSimulation, if_neg h]
      exact ⟨fun hn => (by cases hn), fun hp => absurd hp h⟩
  · intro later laterReal
    rfl

set_option maxRecDepth 100000 in
theorem kmaTimeString_expiry_witness :
    kmaTimeString (StartSimulation ⟨0, [], 1000000000, 0⟩ 100000000) 2100000000 2200000000 =
      ("19700101000001".toList, none) :=
  ((kmaTimeString_expiry ⟨0, [], 1000000000, 0⟩ 100000000 2100000000 2200000000
    (by decide)).1 (by decide)).trans (by rfl)

end Pews
